import Mathlib

/-!
# Verification of the Discord calendar-agent pipeline

A shallow embedding of `src/main.py` (single-channel Discord bot that sends
message text to a generative model, extracts a JSON event record from the raw
response, and forwards it to a webhook), together with proofs settling the
frozen claims about it.

Conventions of the embedding:
* Python strings are modelled as `List Char` (Unicode scalar values); all the
  string routines used by the source (`split`, `strip`, slicing, `in`) are
  re-implemented with Python semantics (`pySplit`, `pyStrip`, `pyTake`, and
  list-infix containment).
* `json.loads` / `json.dumps` are modelled by `loads` / `dumps`, mirroring the
  CPython `json` module: strict strings (raw control characters rejected,
  surrogate-pair `\uXXXX` escapes combined), ASCII-escaping serialisation with
  the default `(", ", ": ")` separators, JSON whitespace skipping, and the
  trailing "Extra data" check.  Objects are ordered key/value lists.  Number
  tokens are kept verbatim (`Json.num`); only their Python truthiness is
  interpreted (`pyTruthy`), which is all the source inspects.
* The `on_message` coroutine is embedded as a pure function from the message,
  the configuration and an environment oracle (model outcome, webhook outcome,
  whether each defensive `remove_reaction` call raises) to a trace of
  externally visible actions plus a result (`completed`, or terminated by an
  exception escaping the handler).  Reaction additions, replies and webhook
  posts are never assumed to fail; only `remove_reaction` has a failure oracle,
  because the source guards exactly those calls.
* `except main.NotFound:` in the source names the module-level *function*
  `main`; evaluating that clause (which Python does only when the guarded
  `remove_reaction` raises) itself raises `AttributeError`.  The embedding
  reflects this: a failing removal produces `PyExc.attributeError` instead of
  being absorbed.
-/

namespace DCS

/-! ## Python string primitives (on `List Char`) -/

/-- The characters stripped by Python `str.strip()` with no argument
(ASCII whitespace; the rare non-ASCII Python whitespace is not used here). -/
def pyIsSpace (c : Char) : Bool :=
  c == ' ' || c == '\t' || c == '\n' || c == '\r' || c == '\x0b' || c == '\x0c'

/-- Python `s.strip()`. -/
def pyStrip (s : List Char) : List Char :=
  ((s.dropWhile pyIsSpace).reverse.dropWhile pyIsSpace).reverse

/-- Python slicing `s[:n]` on a string. -/
def pyTake (n : Nat) (s : String) : String :=
  ⟨s.data.take n⟩

/-- The prefix of `s` before the first occurrence of `sep` (all of `s` when
`sep` does not occur).  Scans left to right, one character at a time. -/
def upToFirst (sep : List Char) : List Char → List Char
  | [] => []
  | c :: rest => if sep.isPrefixOf (c :: rest) then [] else c :: upToFirst sep rest

/-- The suffix of `s` after the first occurrence of `sep` (empty when `sep`
does not occur). -/
def afterFirst (sep : List Char) : List Char → List Char
  | [] => []
  | c :: rest =>
    if sep.isPrefixOf (c :: rest) then (c :: rest).drop sep.length else afterFirst sep rest

/-- Prepend a character to the first chunk of a chunk list. -/
def consHead (c : Char) : List (List Char) → List (List Char)
  | [] => [[c]]
  | chunk :: chunks => (c :: chunk) :: chunks

/-- Worker for `pySplit`; `fuel` dominates the input length so the scan is
structural. -/
def pySplitGo (sep : List Char) : Nat → List Char → List (List Char)
  | _, [] => [[]]
  | 0, s => [s]
  | fuel + 1, c :: rest =>
    if sep.isPrefixOf (c :: rest) then
      [] :: pySplitGo sep fuel ((c :: rest).drop sep.length)
    else
      consHead c (pySplitGo sep fuel rest)

/-- Python `s.split(sep)` for a non-empty separator: non-overlapping
left-to-right occurrences of `sep` cut `s` into chunks (empty chunks kept). -/
def pySplit (sep s : List Char) : List (List Char) :=
  if sep.isEmpty then [s] else pySplitGo sep s.length s

/-! ## The `json` module: values, parser, serialiser -/

/-- A JSON value as the Python `json` module produces it, except that objects
are ordered key/value lists (duplicate keys are not collapsed) and number
tokens are kept verbatim rather than converted to `int`/`float`. -/
inductive Json where
  | null
  | bool (b : Bool)
  | num (tok : List Char)
  | str (s : List Char)
  | arr (elems : List Json)
  | obj (members : List (List Char × Json))

/-- The digits of a number token before any exponent marker. -/
def numMantissa (tok : List Char) : List Char :=
  tok.takeWhile (fun c => !(c == 'e') && !(c == 'E'))

/-- Whether a number token denotes the value zero (every mantissa digit is
`0`; tokens with no digits, i.e. `NaN`/`Infinity`, are not zero). -/
def numIsZero (tok : List Char) : Bool :=
  (numMantissa tok).any (fun c => c.isDigit) &&
    (numMantissa tok).all (fun c => !c.isDigit || c == '0')

/-- Python truthiness (`bool(x)`) of a parsed JSON value: the source uses
`if not event_details` to detect "no event found". -/
def pyTruthy : Json → Bool
  | .null => false
  | .bool b => b
  | .num tok => !(numIsZero tok)
  | .str s => !s.isEmpty
  | .arr es => !es.isEmpty
  | .obj ms => !ms.isEmpty

/-- JSON whitespace (the only characters `json.loads` skips between tokens). -/
def jsonWs (c : Char) : Bool :=
  c == ' ' || c == '\t' || c == '\n' || c == '\r'

/-- Skip JSON whitespace. -/
def skipWs (s : List Char) : List Char := s.dropWhile jsonWs

/-- Value of one hexadecimal digit (`int(c, 16)` accepts both cases);
written over the code point: digits are 48-57, the lowercase letters 97-102
and the uppercase letters 65-70. -/
def hexVal (c : Char) : Option Nat :=
  let n := c.toNat
  if 48 ≤ n && n ≤ 57 then some (n - 48)
  else if 97 ≤ n && n ≤ 102 then some (n - 87)
  else if 65 ≤ n && n ≤ 70 then some (n - 55)
  else none

/-- Value of a 4-digit hexadecimal escape body. -/
def hex4 (a b c d : Char) : Option Nat :=
  match hexVal a, hexVal b, hexVal c, hexVal d with
  | some va, some vb, some vc, some vd => some (((va * 16 + vb) * 16 + vc) * 16 + vd)
  | _, _, _, _ => none

/-- Lowercase hexadecimal digit, as `"%04x"` formatting produces. -/
def hexDig (k : Nat) : Char :=
  if k < 10 then Char.ofNat ('0'.toNat + k) else Char.ofNat ('a'.toNat + (k - 10))

/-- The table of single-character string escapes of the `json` decoder. -/
def escTable (e : Char) : Option Char :=
  if e = '"' then some '"'
  else if e = '\\' then some '\\'
  else if e = '/' then some '/'
  else if e = 'b' then some '\x08'
  else if e = 'f' then some '\x0c'
  else if e = 'n' then some '\n'
  else if e = 'r' then some '\r'
  else if e = 't' then some '\t'
  else none

/-- Strict `json` string scanning, after the opening quote: literal characters
up to the closing quote, raw control characters rejected, escapes decoded,
`\uXXXX` high/low surrogate pairs combined (a lone surrogate keeps its code,
represented through `Char.ofNat`).  `fuel` dominates the input length (every
step consumes at least one character), keeping the recursion structural. -/
def parseStringGo : Nat → List Char → Option (List Char × List Char)
  | _, [] => none
  | 0, _ :: _ => none
  | fuel + 1, c :: rest =>
    if c = '"' then some ([], rest)
    else if c = '\\' then
      match rest with
      | [] => none
      | e :: rest2 =>
        if e = 'u' then
          match rest2 with
          | a :: b :: c2 :: d2 :: rest3 =>
            match hex4 a b c2 d2 with
            | none => none
            | some n =>
              if 0xd800 ≤ n ∧ n ≤ 0xdbff then
                match rest3 with
                | '\\' :: 'u' :: a2 :: b2 :: c3 :: d3 :: rest4 =>
                  match hex4 a2 b2 c3 d3 with
                  | none => none
                  | some m =>
                    if 0xdc00 ≤ m ∧ m ≤ 0xdfff then
                      (parseStringGo fuel rest4).map
                        (fun p => (Char.ofNat (0x10000 + (n - 0xd800) * 0x400 + (m - 0xdc00)) :: p.1, p.2))
                    else
                      (parseStringGo fuel rest3).map (fun p => (Char.ofNat n :: p.1, p.2))
                | '\\' :: 'u' :: _ => none
                | _ => (parseStringGo fuel rest3).map (fun p => (Char.ofNat n :: p.1, p.2))
              else
                (parseStringGo fuel rest3).map (fun p => (Char.ofNat n :: p.1, p.2))
          | _ => none
        else
          match escTable e with
          | some ch => (parseStringGo fuel rest2).map (fun p => (ch :: p.1, p.2))
          | none => none
    else if c.toNat < 0x20 then none
    else (parseStringGo fuel rest).map (fun p => (c :: p.1, p.2))

/-- String scanning with enough fuel for its input. -/
def parseStringBody (s : List Char) : Option (List Char × List Char) :=
  parseStringGo (s.length + 1) s

/-- ASCII decimal digit. -/
def isDig (c : Char) : Bool := '0' ≤ c && c ≤ '9'

/-- Match the `json` number regular expression
`(-?(?:0|[1-9]\d*))(\.\d+)?([eE][-+]?\d+)?` at the head of the input,
returning the matched token and the rest. -/
def parseNumTok (s : List Char) : Option (List Char × List Char) :=
  let (sgn, s1) : List Char × List Char :=
    match s with
    | '-' :: r => (['-'], r)
    | _ => ([], s)
  match s1 with
  | [] => none
  | c :: r =>
    if !(isDig c) then none
    else
      let (ip, s2) : List Char × List Char :=
        if c = '0' then (['0'], r) else (c :: r.takeWhile isDig, r.dropWhile isDig)
      let (fp, s3) : List Char × List Char :=
        match s2 with
        | '.' :: r2 =>
          if (r2.takeWhile isDig).isEmpty then ([], s2)
          else ('.' :: r2.takeWhile isDig, r2.dropWhile isDig)
        | _ => ([], s2)
      let (ep, s4) : List Char × List Char :=
        match s3 with
        | e :: r3 =>
          if e = 'e' ∨ e = 'E' then
            match r3 with
            | x :: r4 =>
              if x = '+' ∨ x = '-' then
                if (r4.takeWhile isDig).isEmpty then ([], s3)
                else (e :: x :: r4.takeWhile isDig, r4.dropWhile isDig)
              else if (r3.takeWhile isDig).isEmpty then ([], s3)
              else (e :: r3.takeWhile isDig, r3.dropWhile isDig)
            | [] => ([], s3)
          else ([], s3)
        | [] => ([], s3)
      some (sgn ++ ip ++ fp ++ ep, s4)

mutual

/-- One-shot JSON value scanner, mirroring `json.scanner.py_make_scanner`:
dispatch on the head character, literals `null`/`true`/`false`, the number
regular expression, then the constants `NaN`, `Infinity`, `-Infinity`.
`fuel` only bounds object/array nesting steps. -/
def parseValue : Nat → List Char → Option (Json × List Char)
  | _, [] => none
  | 0, _ :: _ => none
  | fuel + 1, s =>
    match s with
    | '"' :: rest =>
      (parseStringBody rest).map (fun p => (Json.str p.1, p.2))
    | '{' :: rest =>
      (match skipWs rest with
       | '}' :: r2 => some (Json.obj [], r2)
       | s2 => (parseMembers fuel s2).map (fun p => (Json.obj p.1, p.2)))
    | '[' :: rest =>
      (match skipWs rest with
       | ']' :: r2 => some (Json.arr [], r2)
       | s2 => (parseElems fuel s2).map (fun p => (Json.arr p.1, p.2)))
    | 'n' :: 'u' :: 'l' :: 'l' :: rest => some (Json.null, rest)
    | 't' :: 'r' :: 'u' :: 'e' :: rest => some (Json.bool true, rest)
    | 'f' :: 'a' :: 'l' :: 's' :: 'e' :: rest => some (Json.bool false, rest)
    | 'N' :: 'a' :: 'N' :: rest => some (Json.num ['N', 'a', 'N'], rest)
    | 'I' :: 'n' :: 'f' :: 'i' :: 'n' :: 'i' :: 't' :: 'y' :: rest =>
      some (Json.num "Infinity".data, rest)
    | '-' :: 'I' :: 'n' :: 'f' :: 'i' :: 'n' :: 'i' :: 't' :: 'y' :: rest =>
      some (Json.num "-Infinity".data, rest)
    | s' =>
      (parseNumTok s').map (fun p => (Json.num p.1, p.2))

/-- Object members from the first key on (`'}'` for the empty object is
handled by the caller), as `json.decoder.JSONObject` does. -/
def parseMembers : Nat → List Char → Option (List (List Char × Json) × List Char)
  | 0, _ => none
  | fuel + 1, s =>
    match s with
    | '"' :: rest =>
      (match parseStringBody rest with
       | none => none
       | some (k, r1) =>
         match skipWs r1 with
         | ':' :: r2 =>
           (match parseValue fuel (skipWs r2) with
            | none => none
            | some (v, r3) =>
              match skipWs r3 with
              | '}' :: r4 => some ([(k, v)], r4)
              | ',' :: r4 =>
                (match parseMembers fuel (skipWs r4) with
                 | some (ms, r5) => some ((k, v) :: ms, r5)
                 | none => none)
              | _ => none)
         | _ => none)
    | _ => none

/-- Array elements from the first element on (`']'` for the empty array is
handled by the caller), as `json.decoder.JSONArray` does. -/
def parseElems : Nat → List Char → Option (List Json × List Char)
  | 0, _ => none
  | fuel + 1, s =>
    match parseValue fuel s with
    | none => none
    | some (v, r) =>
      match skipWs r with
      | ']' :: r2 => some ([v], r2)
      | ',' :: r2 =>
        (match parseElems fuel (skipWs r2) with
         | some (es, r3) => some ((v :: es), r3)
         | none => none)
      | _ => none

end

/-- `json.loads`: skip leading whitespace, scan one value, and require only
whitespace to remain ("Exta data" otherwise); `none` models the
`json.JSONDecodeError` raised on any failure. -/
def loads (s : List Char) : Option Json :=
  match parseValue (s.length + 1) (skipWs s) with
  | some (j, r) => if skipWs r = [] then some j else none
  | none => none

/-- `json.dumps` escaping of one character with the default
`ensure_ascii=True`: the two-character shortcuts, `\u00xx` for other control
characters, printable ASCII verbatim, `\uxxxx` for anything above `~`, and a
surrogate pair for astral code points. -/
def escChar (c : Char) : List Char :=
  if c = '"' then ['\\', '"']
  else if c = '\\' then ['\\', '\\']
  else if c = '\n' then ['\\', 'n']
  else if c = '\r' then ['\\', 'r']
  else if c = '\t' then ['\\', 't']
  else if c = '\x08' then ['\\', 'b']
  else if c = '\x0c' then ['\\', 'f']
  else if c.toNat < 0x20 then
    ['\\', 'u', hexDig (c.toNat / 4096 % 16), hexDig (c.toNat / 256 % 16),
     hexDig (c.toNat / 16 % 16), hexDig (c.toNat % 16)]
  else if c.toNat < 0x7f then [c]
  else if c.toNat < 0x10000 then
    ['\\', 'u', hexDig (c.toNat / 4096 % 16), hexDig (c.toNat / 256 % 16),
     hexDig (c.toNat / 16 % 16), hexDig (c.toNat % 16)]
  else
    ['\\', 'u', hexDig ((0xd800 + (c.toNat - 0x10000) / 0x400) / 4096 % 16),
     hexDig ((0xd800 + (c.toNat - 0x10000) / 0x400) / 256 % 16),
     hexDig ((0xd800 + (c.toNat - 0x10000) / 0x400) / 16 % 16),
     hexDig ((0xd800 + (c.toNat - 0x10000) / 0x400) % 16),
     '\\', 'u', hexDig ((0xdc00 + (c.toNat - 0x10000) % 0x400) / 4096 % 16),
     hexDig ((0xdc00 + (c.toNat - 0x10000) % 0x400) / 256 % 16),
     hexDig ((0xdc00 + (c.toNat - 0x10000) % 0x400) / 16 % 16),
     hexDig ((0xdc00 + (c.toNat - 0x10000) % 0x400) % 16)]

/-- Escaped body of a serialised JSON string. -/
def escBody (s : List Char) : List Char := s.flatMap escChar

/-- A serialised JSON string, quotes included. -/
def dumpsStr (s : List Char) : List Char := '"' :: escBody s ++ ['"']

mutual

/-- `json.dumps` with the default separators `", "` and `": "`. -/
def dumps : Json → List Char
  | .null => "null".data
  | .bool true => "true".data
  | .bool false => "false".data
  | .num tok => tok
  | .str s => dumpsStr s
  | .arr es => '[' :: dumpsArr es ++ [']']
  | .obj ms => '{' :: dumpsObj ms ++ ['}']

/-- Array items joined by `", "`. -/
def dumpsArr : List Json → List Char
  | [] => []
  | [e] => dumps e
  | e :: e2 :: es => dumps e ++ ',' :: ' ' :: dumpsArr (e2 :: es)

/-- Object members `key: value` joined by `", "`. -/
def dumpsObj : List (List Char × Json) → List Char
  | [] => []
  | [(k, v)] => dumpsStr k ++ ':' :: ' ' :: dumps v
  | (k, v) :: m2 :: ms => dumpsStr k ++ ':' :: ' ' :: dumps v ++ ',' :: ' ' :: dumpsObj (m2 :: ms)

end

/-! ## JSON extraction from the raw model response (`src/main.py` lines 127-145) -/

/-- The opening of a JSON-labeled fenced block. -/
def fenceJson : List Char := "```json".data

/-- A plain fence marker. -/
def fenceM : List Char := "```".data

/-- How the extraction step fails: the source raises `json.JSONDecodeError`
itself with the two messages below ("no JSON found" conditions), and
`json.loads` raises it for unparsable input ("malformed JSON"). -/
inductive ExtractErr where
  | noJson (msg : String)
  | malformed
deriving DecidableEq

/-- `"No clear JSON block found in Gemini response."` -/
def msgNoBlock : String := "No clear JSON block found in Gemini response."

/-- `"Extracted JSON string is empty."` -/
def msgEmpty : String := "Extracted JSON string is empty."

/-- Lines 130-139: compute the candidate JSON string, or raise.  The branch
order and the expressions mirror the source:
`raw.split("```json")[1].split("```")[0].strip()` when `"```json" in raw`,
the same with separator `"```"` when only `"``` " in raw`, the stripped text
verbatim when it is brace-delimited, and the explicit
`JSONDecodeError("No clear JSON block found in Gemini response.")` raise
otherwise. -/
def extractCandidate (raw : List Char) : Except ExtractErr (List Char) :=
  if fenceJson <:+: raw then
    .ok (pyStrip ((pySplit fenceM ((pySplit fenceJson raw).getD 1 [])).getD 0 []))
  else if fenceM <:+: raw then
    .ok (pyStrip ((pySplit fenceM ((pySplit fenceM raw).getD 1 [])).getD 0 []))
  else if (pyStrip raw).head? = some '{' ∧ (pyStrip raw).getLast? = some '}' then
    .ok (pyStrip raw)
  else
    .error (.noJson msgNoBlock)

/-- Lines 130-143: the candidate string, with the line-142 guard
`if not json_str: raise JSONDecodeError("Extracted JSON string is empty.", ...)`. -/
def extractJsonStr (raw : List Char) : Except ExtractErr (List Char) :=
  match extractCandidate raw with
  | .error e => .error e
  | .ok js => if js.isEmpty then .error (.noJson msgEmpty) else .ok js

/-- Lines 130-145: extraction followed by `json.loads`; a parse failure of the
extracted string is the distinct "malformed JSON" condition. -/
def extractAndParse (raw : List Char) : Except ExtractErr Json :=
  match extractJsonStr raw with
  | .error e => .error e
  | .ok js =>
    match loads js with
    | some j => .ok j
    | none => .error .malformed

/-- Modelled from the spec (§4.4 steps 1-2), the claim as stated: "take the
content between the first such fence pair" — the text after the first
occurrence of the opening marker, up to the next fence marker (to the end
when no fence marker follows). -/
def statedFenceContent (opener : List Char) (s : List Char) : List Char :=
  upToFirst fenceM (afterFirst opener s)

/-- Modelled from the spec (§4.4), the extraction algorithm with the claim's
priority order, the fence-pair contents read as `statedFenceContent`, and the
same trimming and emptiness conditions as the claim states them. -/
def statedExtract (raw : List Char) : Except ExtractErr (List Char) :=
  let cand : Except ExtractErr (List Char) :=
    if fenceJson <:+: raw then .ok (pyStrip (statedFenceContent fenceJson raw))
    else if fenceM <:+: raw then .ok (pyStrip (statedFenceContent fenceM raw))
    else if (pyStrip raw).head? = some '{' ∧ (pyStrip raw).getLast? = some '}' then
      .ok (pyStrip raw)
    else .error (.noJson msgNoBlock)
  match cand with
  | .error e => .error e
  | .ok js => if js.isEmpty then .error (.noJson msgEmpty) else .ok js

/-- The spec-side extraction pipeline as the claim states it, through
`json.loads`. -/
def statedPipeline (raw : List Char) : Except ExtractErr Json :=
  match statedExtract raw with
  | .error e => .error e
  | .ok js =>
    match loads js with
    | some j => .ok j
    | none => .error .malformed

/-- The amended reading of the labeled-fence content: as `statedFenceContent`,
except that the content is additionally cut at the next occurrence of the
opening `"```json"` label itself, because the source locates both markers by
non-overlapping left-to-right scanning (`str.split`). -/
def amendedFenceContent (opener : List Char) (s : List Char) : List Char :=
  upToFirst fenceM (upToFirst opener (afterFirst opener s))

/-- The amended extraction algorithm: the claim's algorithm with the
labeled-fence branch reading `amendedFenceContent`; the plain-fence branch is
unchanged from the spec's words. -/
def amendedExtract (raw : List Char) : Except ExtractErr (List Char) :=
  let cand : Except ExtractErr (List Char) :=
    if fenceJson <:+: raw then .ok (pyStrip (amendedFenceContent fenceJson raw))
    else if fenceM <:+: raw then .ok (pyStrip (statedFenceContent fenceM raw))
    else if (pyStrip raw).head? = some '{' ∧ (pyStrip raw).getLast? = some '}' then
      .ok (pyStrip raw)
    else .error (.noJson msgNoBlock)
  match cand with
  | .error e => .error e
  | .ok js => if js.isEmpty then .error (.noJson msgEmpty) else .ok js

/-- The amended extraction pipeline through `json.loads`. -/
def amendedPipeline (raw : List Char) : Except ExtractErr Json :=
  match amendedExtract raw with
  | .error e => .error e
  | .ok js =>
    match loads js with
    | some j => .ok j
    | none => .error .malformed

/-! ## The prompt builder (`src/main.py` lines 86-112)

The f-string template is reproduced verbatim (a triple-quoted literal whose
lines are indented by twelve spaces), split at its two interpolation points
`{current_date_str}` and `{message_content}`, with the three disambiguation
rules named so claims can point at them. -/

/-- The full-day rule line of the template. -/
def ruleFullDay : String :=
  "- If only a date is provided for the start, assume it\x27s an all-day event for that date. For example, \"event on 2025-12-25\" means start_datetime: \"2025-12-25T00:00:00\" and end_datetime: \"2025-12-25T23:59:59\"."

/-- The one-hour default-duration rule line of the template. -/
def ruleOneHour : String :=
  "- If only a start datetime is provided, assume the event is 1 hour long for the end_datetime."

/-- The empty-object rule line of the template. -/
def ruleEmptyObject : String :=
  "- If the text does not seem to describe a calendar event, return an empty JSON object \x7b\x7d."

/-- The template up to the `{current_date_str}` interpolation point. -/
def promptP1 : String :=
  "\n            You are an intelligent assistant that extracts calendar event details from text.\n            The output MUST be a valid JSON object.\n            The JSON object must have the following keys:\n            - \"title\": (string) The title or summary of the event.\n            - \"description\": (string) A more detailed description of the event.\n            - \"start_datetime\": (string) The start date and time in ISO 8601 format (YYYY-MM-DDTHH:MM:SS). in EDT timezone.\n            - \"end_datetime\": (string) The end date and time in ISO 8601 format (YYYY-MM-DDTHH:MM:SS). in EDT timezone.\n            - \"duration\": (string, optional) The duration of the event. format (HH:mm)\n            - \"location\": (string, optional) The location of the event.\n\n            Guidelines:\n            - If a value for an optional field (description, location) is not present, use null or omit the key.\n            "
    ++ ruleFullDay
    ++ "\n            - If only a start time is provided without a specific date, try to infer the date based on context like \"today\", \"tomorrow\". The current date is "

/-- The tail of `promptP2` from the empty-object rule on. -/
def promptP2b : String :=
  "\n            " ++ ruleEmptyObject
    ++ "\n\n            NOTES: ENSURE ALL TIMEZONES ARE EDT.\n\n            \n            Parse the following text:\n            \""

/-- The template between the two interpolation points. -/
def promptP2 : String :=
  ".\n            " ++ ruleOneHour ++ promptP2b

/-- The template after the `{message_content}` interpolation point. -/
def promptP3 : String :=
  "\"\n\n            JSON Output:\n            "

/-- Lines 86-112: the instruction string as a function of the current date
string and the message text.  It is a Lean function, hence deterministic and
side-effect free by construction. -/
def buildPrompt (currentDateStr messageContent : String) : String :=
  promptP1 ++ currentDateStr ++ promptP2 ++ messageContent ++ promptP3

/-! ## The message-handling pipeline (`src/main.py` `on_message`, lines 56-192) -/

/-- The configured target channel name (line 19). -/
def targetChannelName : String := "calendar-agent"

/-- Process configuration: which of the three environment values are present
(the Discord token gates `main`, the other two gate the pipeline). -/
structure Config where
  discordTokenPresent : Bool
  geminiConfigured : Bool
  webhookConfigured : Bool

/-- The fields of the incoming message the handler reads. -/
structure Msg where
  authorIsBot : Bool
  channelName : String
  content : String

/-- Outcome of the one-shot model call: a raw text response, a content-safety
block (`BlockedPromptException`), or any other exception (carrying its
`str(e)` rendering). -/
inductive ModelOutcome where
  | text (raw : String)
  | blocked
  | failed (desc : String)

/-- Outcome of the one-shot webhook POST: an HTTP response, or a transport
failure (any `aiohttp` exception, carrying its `str(e)` rendering). -/
inductive WebhookOutcome where
  | response (status : Nat) (body : String)
  | transportFailure (desc : String)

/-- The environment oracle for one invocation of the handler: the current
date, the external outcomes, and whether each of the three guarded
`remove_reaction('🤔')` calls raises (`discord.NotFound`, e.g. because the
reaction was already removed). -/
structure Env where
  currentDateStr : String
  modelOutcome : ModelOutcome
  removeAfterModelFails : Bool
  removeInBlockedFails : Bool
  removeInUnexpectedFails : Bool
  webhook : WebhookOutcome

/-- Externally visible actions of the handler, in program order.  Prints that
interpolate a Python value whose rendering is not modelled (`repr` of the
parsed dict, `str` of an exception object) are recorded structurally. -/
inductive Action where
  | addReaction (emoji : String)
  | removeReactionAttempt (emoji : String)
  | modelCall (prompt : String)
  | webhookPost (body : List Char)
  | send (text : String)
  | printLine (text : String)
  | printParsedDetails
  | printExc (tag : String)
deriving DecidableEq

/-- Whether an action is a reply to the channel. -/
def Action.isSend : Action → Bool
  | .send _ => true
  | _ => false

/-- Whether an action is the webhook POST. -/
def Action.isWebhookPost : Action → Bool
  | .webhookPost _ => true
  | _ => false

/-- Whether an action touches a reaction (adds or attempts a removal). -/
def Action.isReaction : Action → Bool
  | .addReaction _ => true
  | .removeReactionAttempt _ => true
  | _ => false

/-- The exceptions that can propagate to the handler's `except` clauses.
`attributeError` is the `AttributeError` raised by evaluating `main.NotFound`
(`main` is the module-level function) when a guarded `remove_reaction`
raises. -/
inductive PyExc where
  | jsonDecode (kind : ExtractErr) (raw : String)
  | blockedPrompt
  | attributeError
  | generic (desc : String)
deriving DecidableEq

/-- `str(e)` for the exceptions the generic handler can receive. -/
def pyStrOfExc : PyExc → String
  | .generic desc => desc
  | .attributeError => "\x27function\x27 object has no attribute \x27NotFound\x27"
  | .jsonDecode _ _ => ""
  | .blockedPrompt => ""

/-- How one handler invocation ends: the coroutine returns, or an exception
escapes it (the failure mode the spec says must never happen). -/
inductive HandlerResult where
  | completed
  | raised (e : PyExc)
deriving DecidableEq

/-- The emojis used by the status reflector. -/
def thinkingE : String := "🤔"

/-- Shrug: no event found. -/
def shrugE : String := "🤷"

/-- Success: webhook accepted the event. -/
def successE : String := "✅"

/-- Warning: webhook delivery failed. -/
def warningE : String := "⚠️"

/-- Error: extraction failed or unexpected exception. -/
def errorE : String := "❌"

/-- Blocked: content-safety block. -/
def blockedE : String := "🚫"

/-- The `try` suite, lines 83-165: build the prompt, call the model, guardedly
remove the thinking reaction, extract and parse, and either stop on the empty
record or POST to the webhook.  Returns the actions performed and either
normal completion or the exception that escapes the suite. -/
def tryBody (env : Env) (msg : Msg) : List Action × Except PyExc Unit :=
  let prompt := buildPrompt env.currentDateStr msg.content
  let a0 : List Action := [.modelCall prompt]
  match env.modelOutcome with
  | .blocked => (a0, .error .blockedPrompt)
  | .failed desc => (a0, .error (.generic desc))
  | .text raw =>
    let a1 := a0 ++ [Action.removeReactionAttempt thinkingE]
    if env.removeAfterModelFails then (a1, .error .attributeError)
    else
      let a2 := a1 ++ [Action.printLine ("Gemini raw response: " ++ raw)]
      match extractAndParse raw.data with
      | .error k => (a2, .error (.jsonDecode k raw))
      | .ok j =>
        let a3 := a2 ++ [Action.printParsedDetails]
        if pyTruthy j = false then
          (a3 ++ [Action.printLine "Gemini parsed no event details. Not sending to webhook.",
                  Action.addReaction shrugE], .ok ())
        else
          let a4 := a3 ++ [Action.webhookPost (dumps j)]
          match env.webhook with
          | .response st body =>
            if 200 ≤ st ∧ st < 300 then
              (a4 ++ [Action.printLine ("Webhook request successful: " ++ toString st),
                      Action.addReaction successE], .ok ())
            else
              (a4 ++ [Action.printLine ("Webhook request failed: " ++ toString st ++ " - " ++ body),
                      Action.addReaction warningE,
                      Action.send ("Error sending to calendar: " ++ toString st ++ " - "
                        ++ pyTake 1500 body)], .ok ())
          | .transportFailure desc => (a4, .error (.generic desc))

/-- The `except json.JSONDecodeError` handler, lines 167-174.  In every
execution of the embedded pipeline the raw response is in scope when this
handler runs, but the source's `'gemini_response_text' in locals()` test is
kept. -/
def jsonDecodeHandler (raw? : Option String) : List Action :=
  [.printExc "Error decoding JSON from Gemini: "]
    ++ (match raw? with
        | some raw =>
          [.printLine ("Gemini raw response was: " ++ raw),
           .send ("Sorry, I couldn\x27t understand the event details. Gemini\x27s response: ```\n"
             ++ pyTake 1500 raw ++ "\n```")]
        | none =>
          [.send "Sorry, I couldn\x27t understand the event details (no response from Gemini)."])
    ++ [.addReaction errorE]

/-- The `except BlockedPromptException` handler, lines 175-182, with the
broken `except main.NotFound` guard around the removal. -/
def blockedHandler (env : Env) : List Action × HandlerResult :=
  let a : List Action := [.printExc "Gemini API call failed due to blocked prompt: ",
                          .removeReactionAttempt thinkingE]
  if env.removeInBlockedFails then (a, .raised .attributeError)
  else
    (a ++ [Action.addReaction blockedE,
           Action.send "Sorry, your request was blocked by content safety filters."],
     .completed)

/-- The `except Exception` handler, lines 183-192, with the broken
`except main.NotFound` guard around the removal. -/
def unexpectedHandler (env : Env) (e : PyExc) : List Action × HandlerResult :=
  let a : List Action := [.printExc "An unexpected error occurred: ",
                          .printExc "traceback.print_exc",
                          .removeReactionAttempt thinkingE]
  if env.removeInUnexpectedFails then (a, .raised .attributeError)
  else
    (a ++ [Action.addReaction errorE,
           Action.send ("An unexpected error occurred: " ++ pyTake 1000 (pyStrOfExc e))],
     .completed)

/-- `on_message`, lines 56-192: the author and channel filters, the two
configuration short-circuits, the received-message print, the thinking
reaction, the `try` suite and its three `except` clauses. -/
def on_message (cfg : Config) (env : Env) (msg : Msg) : List Action × HandlerResult :=
  if msg.authorIsBot then ([], .completed)
  else if msg.channelName = targetChannelName then
    if cfg.geminiConfigured = false then
      ([.printLine "Gemini model not initialized. Skipping message processing."], .completed)
    else if cfg.webhookConfigured = false then
      ([.printLine "Make.com webhook URL not configured. Skipping message processing."], .completed)
    else
      let pre : List Action :=
        [.printLine ("Received message in \x27calendar-agent\x27: \"" ++ msg.content ++ "\""),
         .addReaction thinkingE]
      match tryBody env msg with
      | (acts, .ok ()) => (pre ++ acts, .completed)
      | (acts, .error e) =>
        match e with
        | .jsonDecode _ raw => (pre ++ acts ++ jsonDecodeHandler (some raw), .completed)
        | .blockedPrompt =>
          let (h, r) := blockedHandler env
          (pre ++ acts ++ h, r)
        | e' =>
          let (h, r) := unexpectedHandler env e'
          (pre ++ acts ++ h, r)
  else ([], .completed)

/-- `main`, lines 195-199: without the Discord token the process prints the
warning and returns without starting the client; otherwise `client.run` is
reached. -/
def main (cfg : Config) : List Action × Bool :=
  if cfg.discordTokenPresent = false then
    ([.printLine "DISCORD_TOKEN not found in .env file. Bot cannot start."], false)
  else ([], true)

/-! ## EventRecords and fence wrapping (for the round-trip claim) -/

/-- The six EventRecord keys paired with six string values. -/
def eventPairs (t d sd ed du lo : List Char) : List (List Char × List Char) :=
  [("title".data, t), ("description".data, d), ("start_datetime".data, sd),
   ("end_datetime".data, ed), ("duration".data, du), ("location".data, lo)]

/-- String key/value pairs as JSON object members. -/
def strMembers (ps : List (List Char × List Char)) : List (List Char × Json) :=
  ps.map (fun p => (p.1, Json.str p.2))

/-- An EventRecord: a JSON object with the EventRecord keys and string
values. -/
def eventObj (t d sd ed du lo : List Char) : Json :=
  Json.obj (strMembers (eventPairs t d sd ed du lo))

/-- Wrapping a payload in a json-labeled fenced code block. -/
def fenceWrap (s : List Char) : List Char :=
  fenceJson ++ '\n' :: s ++ '\n' :: fenceM

/-! ## Concrete fixtures used by the claim evaluations -/

/-- All three configuration values present. -/
def cfgAll : Config := ⟨true, true, true⟩

/-- A user (non-bot) message in the target channel. -/
def msgUser : Msg := ⟨false, "calendar-agent", "team sync tomorrow at 3pm"⟩

/-- A benign environment: model returns `"{}"`, removals succeed, webhook
would answer 200. -/
def envNeutral : Env := ⟨"2026-10-12", .text "\x7b\x7d", false, false, false, .response 200 "Accepted"⟩

/-- The thinking reaction is already gone when the handler tries to remove it
(both inside the `try` suite and inside the `except Exception` handler). -/
def envRemovalBroken : Env :=
  ⟨"2026-10-12", .text "\x7b\x7d", true, false, true, .response 200 "Accepted"⟩

/-- The model call raises a content-safety block and the thinking reaction is
already gone when the blocked-prompt handler tries to remove it. -/
def envBlockedBroken : Env :=
  ⟨"2026-10-12", .blocked, false, true, false, .response 200 "Accepted"⟩

/-! ## Lemmas: the left-to-right scan functions and Python `split` -/

/-- Boolean prefix test reflects `<+:` (alias keeping later rewrite lists
tidy). -/
theorem isPrefixOf_eq_true_iff {l₁ l₂ : List Char} : l₁.isPrefixOf l₂ = true ↔ l₁ <+: l₂ :=
  List.isPrefixOf_iff_prefix

/-- Where `sep` does not occur, the scan keeps all of `s`. -/
theorem upToFirst_of_not_infix {sep s : List Char} (h : ¬ sep <:+: s) :
    upToFirst sep s = s := by
  induction s with
  | nil => rfl
  | cons c rest ih =>
    rw [upToFirst]
    rw [if_neg]
    · rw [ih fun hi => h (List.infix_cons hi)]
    · intro hp
      exact h (List.IsPrefix.isInfix (isPrefixOf_eq_true_iff.mp hp))

/-- Where `sep` does not occur, there is nothing after it. -/
theorem afterFirst_of_not_infix {sep s : List Char} (h : ¬ sep <:+: s) :
    afterFirst sep s = [] := by
  induction s with
  | nil => rfl
  | cons c rest ih =>
    rw [afterFirst]
    rw [if_neg]
    · exact ih fun hi => h (List.infix_cons hi)
    · intro hp
      exact h (List.IsPrefix.isInfix (isPrefixOf_eq_true_iff.mp hp))

/-- The scan decomposes its input at the first occurrence of `sep`. -/
theorem scan_decomposition {sep s : List Char} (h : sep <:+: s) :
    s = upToFirst sep s ++ sep ++ afterFirst sep s := by
  induction s with
  | nil =>
    rcases h with ⟨p, q, hpq⟩
    have hsep : sep = [] := (List.append_eq_nil.mp (List.append_eq_nil.mp hpq).1).2
    subst hsep
    simp [upToFirst, afterFirst]
  | cons c rest ih =>
    by_cases hp : sep.isPrefixOf (c :: rest)
    · rcases isPrefixOf_eq_true_iff.mp hp with ⟨t, ht⟩
      rw [upToFirst, if_pos hp, afterFirst, if_pos hp, ← ht]
      simp [List.drop_left]
    · have hrest : sep <:+: rest := by
        rcases List.infix_cons_iff.mp h with hcase | hcase
        · exact absurd (isPrefixOf_eq_true_iff.mpr hcase) hp
        · exact hcase
      rw [upToFirst, if_neg hp, afterFirst, if_neg hp]
      calc c :: rest = c :: (upToFirst sep rest ++ sep ++ afterFirst sep rest) := by
            rw [← ih hrest]
        _ = (c :: upToFirst sep rest) ++ sep ++ afterFirst sep rest := by simp

/-- The first scanned chunk is a prefix of the input. -/
theorem upToFirst_isPrefix (sep s : List Char) : upToFirst sep s <+: s := by
  induction s with
  | nil => simp [upToFirst]
  | cons c rest ih =>
    rw [upToFirst]
    by_cases hp : sep.isPrefixOf (c :: rest)
    · simp [hp]
    · rw [if_neg hp]
      exact (List.cons_prefix_cons).mpr ⟨rfl, ih⟩

/-- Scanning a chunk the scan already cut is the identity. -/
theorem upToFirst_upToFirst (sep s : List Char) :
    upToFirst sep (upToFirst sep s) = upToFirst sep s := by
  induction s with
  | nil => rfl
  | cons c rest ih =>
    by_cases hp : sep.isPrefixOf (c :: rest)
    · simp [upToFirst, hp]
    · rw [upToFirst, if_neg hp, upToFirst, if_neg, ih]
      intro hp2
      have h1 : sep <+: c :: upToFirst sep rest := isPrefixOf_eq_true_iff.mp hp2
      have h2 : c :: upToFirst sep rest <+: c :: rest :=
        (List.cons_prefix_cons).mpr ⟨rfl, upToFirst_isPrefix sep rest⟩
      exact absurd (isPrefixOf_eq_true_iff.mpr (h1.trans h2)) hp

/-- The `pySplit` worker does not depend on the fuel once it dominates the
input length. -/
theorem pySplitGo_fuel {sep : List Char} (hsep : sep ≠ []) :
    ∀ fuel₁ fuel₂ s, s.length ≤ fuel₁ → s.length ≤ fuel₂ →
      pySplitGo sep fuel₁ s = pySplitGo sep fuel₂ s := by
  intro fuel₁
  induction fuel₁ with
  | zero =>
    intro fuel₂ s hs _
    match s, hs with
    | [], _ =>
      match fuel₂ with
      | 0 => rfl
      | _ + 1 => rfl
  | succ f ih =>
    intro fuel₂ s hs1 hs2
    match s with
    | [] =>
      match fuel₂ with
      | 0 => rfl
      | _ + 1 => rfl
    | c :: rest =>
      simp only [List.length_cons] at hs1 hs2
      match fuel₂, hs2 with
      | f2 + 1, hs2 =>
        rw [pySplitGo, pySplitGo]
        have hsl : 1 ≤ sep.length := List.length_pos.mpr hsep
        by_cases hp : sep.isPrefixOf (c :: rest)
        · rw [if_pos hp, if_pos hp]
          have hd : ((c :: rest).drop sep.length).length ≤ rest.length := by
            simp only [List.length_drop, List.length_cons]
            omega
          rw [ih f2 _ (by omega) (by omega)]
        · rw [if_neg hp, if_neg hp]
          rw [ih f2 rest (by omega) (by omega)]

/-- Splitting where the separator does not occur yields the single chunk. -/
theorem pySplitGo_of_not_infix {sep : List Char} :
    ∀ fuel s, s.length ≤ fuel → ¬ sep <:+: s → pySplitGo sep fuel s = [s] := by
  intro fuel
  induction fuel with
  | zero =>
    intro s hs _
    match s, hs with
    | [], _ => rfl
  | succ f ih =>
    intro s hs h
    match s with
    | [] => rfl
    | c :: rest =>
      rw [pySplitGo]
      rw [if_neg]
      · rw [ih rest (by simp only [List.length_cons] at hs; omega)
            (fun hi => h (List.infix_cons hi))]
        rfl
      · intro hp
        exact h (List.IsPrefix.isInfix (isPrefixOf_eq_true_iff.mp hp))

/-- Splitting where the separator does not occur yields the single chunk. -/
theorem pySplit_of_not_occur {sep s : List Char} (hsep : sep ≠ []) (h : ¬ sep <:+: s) :
    pySplit sep s = [s] := by
  rw [pySplit, if_neg (by simp [List.isEmpty_iff, hsep])]
  exact pySplitGo_of_not_infix _ s le_rfl h

/-- Splitting at the first occurrence: head chunk, then the split of the
remainder. -/
theorem pySplit_cons_of_occur {sep : List Char} (hsep : sep ≠ []) :
    ∀ fuel s, s.length ≤ fuel → sep <:+: s →
      pySplitGo sep fuel s = upToFirst sep s :: pySplit sep (afterFirst sep s) := by
  intro fuel
  induction fuel with
  | zero =>
    intro s hs h
    match s, hs with
    | [], _ =>
      rcases h with ⟨p, q, hpq⟩
      exact absurd (List.append_eq_nil.mp (List.append_eq_nil.mp hpq).1).2 hsep
  | succ f ih =>
    intro s hs h
    match s with
    | [] =>
      rcases h with ⟨p, q, hpq⟩
      exact absurd (List.append_eq_nil.mp (List.append_eq_nil.mp hpq).1).2 hsep
    | c :: rest =>
      simp only [List.length_cons] at hs
      have hsl : 1 ≤ sep.length := List.length_pos.mpr hsep
      rw [pySplitGo]
      by_cases hp : sep.isPrefixOf (c :: rest)
      · rw [if_pos hp, upToFirst, if_pos hp, afterFirst, if_pos hp]
        congr 1
        rw [pySplit, if_neg (by simp [List.isEmpty_iff, hsep])]
        exact pySplitGo_fuel hsep f _ _
          (by simp only [List.length_drop, List.length_cons]; omega) le_rfl
      · have hrest : sep <:+: rest := by
          rcases List.infix_cons_iff.mp h with hcase | hcase
          · exact absurd (isPrefixOf_eq_true_iff.mpr hcase) hp
          · exact hcase
        rw [if_neg hp, ih rest (by omega) hrest, upToFirst, if_neg hp, afterFirst, if_neg hp]
        rfl

/-- The head chunk of a Python split is the scan up to the first occurrence. -/
theorem pySplit_getD_zero {sep s : List Char} (hsep : sep ≠ []) :
    (pySplit sep s).getD 0 [] = upToFirst sep s := by
  by_cases h : sep <:+: s
  · rw [pySplit, if_neg (by simp [List.isEmpty_iff, hsep])]
    rw [pySplit_cons_of_occur hsep _ s le_rfl h]
    rfl
  · rw [pySplit_of_not_occur hsep h, upToFirst_of_not_infix h]
    rfl

/-- The second chunk of a Python split, when the separator occurs, is the scan
of the remainder. -/
theorem pySplit_getD_one {sep s : List Char} (hsep : sep ≠ []) (h : sep <:+: s) :
    (pySplit sep s).getD 1 [] = upToFirst sep (afterFirst sep s) := by
  rw [pySplit, if_neg (by simp [List.isEmpty_iff, hsep])]
  rw [pySplit_cons_of_occur hsep _ s le_rfl h]
  show (pySplit sep (afterFirst sep s)).getD 0 [] = _
  exact pySplit_getD_zero hsep

/-- The labeled-fence split chain of line 131 computes the amended fence
content. -/
theorem codeBranch1_eq {raw : List Char} (h : fenceJson <:+: raw) :
    (pySplit fenceM ((pySplit fenceJson raw).getD 1 [])).getD 0 [] =
      amendedFenceContent fenceJson raw := by
  rw [pySplit_getD_one (by decide) h, pySplit_getD_zero (by decide)]
  rfl

/-- The plain-fence split chain of line 133 computes exactly the spec's
"content between the first fence pair". -/
theorem codeBranch2_eq {raw : List Char} (h : fenceM <:+: raw) :
    (pySplit fenceM ((pySplit fenceM raw).getD 1 [])).getD 0 [] =
      statedFenceContent fenceM raw := by
  rw [pySplit_getD_one (by decide) h, pySplit_getD_zero (by decide)]
  rw [statedFenceContent, upToFirst_upToFirst]

/-- The source's extraction equals the amended spec-side algorithm. -/
theorem extractJsonStr_eq_amended (raw : List Char) :
    extractJsonStr raw = amendedExtract raw := by
  rw [extractJsonStr, amendedExtract, extractCandidate]
  by_cases h1 : fenceJson <:+: raw
  · rw [if_pos h1, if_pos h1, codeBranch1_eq h1]
  · rw [if_neg h1, if_neg h1]
    by_cases h2 : fenceM <:+: raw
    · rw [if_pos h2, if_pos h2, codeBranch2_eq h2]
    · rw [if_neg h2, if_neg h2]

/-- The source's extraction-and-parse equals the amended spec-side
pipeline. -/
theorem extractAndParse_eq_amended (raw : List Char) :
    extractAndParse raw = amendedPipeline raw := by
  rw [extractAndParse, amendedPipeline, extractJsonStr_eq_amended]

/-- Stripping only removes characters. -/
theorem mem_of_mem_pyStrip {a : Char} {s : List Char} (h : a ∈ pyStrip s) : a ∈ s := by
  rw [pyStrip, List.mem_reverse] at h
  have h2 := (List.dropWhile_sublist (l := (s.dropWhile pyIsSpace).reverse)
    (p := pyIsSpace)).subset h
  rw [List.mem_reverse] at h2
  exact (List.dropWhile_sublist (l := s) (p := pyIsSpace)).subset h2

/-- A response with no fence marker and no opening brace reaches the explicit
"no clear JSON block" raise. -/
theorem extract_no_markers {raw : List Char} (hf : ¬ fenceM <:+: raw) (hb : '{' ∉ raw) :
    extractAndParse raw = .error (.noJson msgNoBlock) := by
  have hj : ¬ fenceJson <:+: raw := by
    intro h
    exact hf (List.IsInfix.trans (List.IsPrefix.isInfix (by decide)) h)
  have hhead : ¬ ((pyStrip raw).head? = some '{' ∧ (pyStrip raw).getLast? = some '}') := by
    rintro ⟨h1, _⟩
    rcases List.head?_eq_some_iff.mp h1 with ⟨t, ht⟩
    exact hb (mem_of_mem_pyStrip (ht ▸ List.mem_cons_self '{' t))
  rw [extractAndParse, extractJsonStr, extractCandidate, if_neg hj, if_neg hf, if_neg hhead]

/-- C2, as stated, fails on `"```json````json"`: the code's non-overlapping
split takes the backtick left over between the two labels, so `json.loads`
fails (the "malformed JSON" condition), whereas reading "the content between
the first such fence pair" literally gives the empty content and hence the
"no JSON found" condition of step 5. -/
theorem C2_stated_counterexample :
    extractAndParse ("```json````json".data) ≠ statedPipeline ("```json````json".data) ∧
      extractAndParse ("```json````json".data) = .error .malformed ∧
      statedPipeline ("```json````json".data) = .error (.noJson msgEmpty) := by
  have h1 : extractAndParse ("```json````json".data) = .error .malformed := by rfl
  have h2 : statedPipeline ("```json````json".data) = .error (.noJson msgEmpty) := by rfl
  refine ⟨fun h => ?_, h1, h2⟩
  rw [h1, h2] at h
  exact ExtractErr.noConfusion (Except.error.inj h)

/-- C2 (amended): the extractor follows the claimed priority order with the
labeled-fence content additionally cut at a following `"```json"` label
(Python's non-overlapping split); in particular a response with no fence
marker and no braces always yields the "no JSON found" condition, never a
crash (the embedded extractor is total). -/
theorem C2_extraction_priority :
    (∀ raw, extractAndParse raw = amendedPipeline raw) ∧
      (∀ raw, ¬ fenceM <:+: raw → '{' ∉ raw → '}' ∉ raw →
        extractAndParse raw = .error (.noJson msgNoBlock)) :=
  ⟨extractAndParse_eq_amended, fun raw hf hb _ => @extract_no_markers raw hf hb⟩

/-- Witness for `C2_extraction_priority` at a fenceless, braceless response. -/
theorem C2_witness :
    extractAndParse ("I could not find anything.".data) = .error (.noJson msgNoBlock) :=
  C2_extraction_priority.2 ("I could not find anything.".data)
    (by decide) (by decide) (by decide)

/-! ## C9: the prompt builder -/

/-- C9: the prompt builder is a function of `(text, date)` (purity and
determinism are by construction, as it is a Lean function), and for every
date string and message text its output contains the fixed full-day rule
(with the `2025-12-25T00:00:00`/`2025-12-25T23:59:59` example), the 1-hour
default-duration rule, and the instruction to return an empty JSON object for
non-event text. -/
theorem C9_prompt_contains_rules (currentDateStr messageContent : String) :
    ruleFullDay.data <:+: (buildPrompt currentDateStr messageContent).data ∧
      ruleOneHour.data <:+: (buildPrompt currentDateStr messageContent).data ∧
      ruleEmptyObject.data <:+: (buildPrompt currentDateStr messageContent).data := by
  have hmid : ∀ a b c : String, b.data <:+: (a ++ b ++ c).data := by
    intro a b c
    simp only [String.data_append]
    exact List.infix_append _ _ _
  have h2 : promptP2.data <:+: (buildPrompt currentDateStr messageContent).data := by
    unfold buildPrompt
    exact ⟨(promptP1 ++ currentDateStr).data, (messageContent ++ promptP3).data, by
      simp only [String.data_append, List.append_assoc]⟩
  refine ⟨?_, ?_, ?_⟩
  · have h1 : ruleFullDay.data <:+: promptP1.data := by
      unfold promptP1
      exact hmid _ _ _
    have h1' : promptP1.data <:+: (buildPrompt currentDateStr messageContent).data := by
      unfold buildPrompt
      simp only [String.data_append, List.append_assoc]
      exact (List.prefix_append _ _).isInfix
    exact h1.trans h1'
  · have h1 : ruleOneHour.data <:+: promptP2.data := by
      unfold promptP2
      exact hmid _ _ _
    exact h1.trans h2
  · have h1 : ruleEmptyObject.data <:+: promptP2b.data := by
      unfold promptP2b
      exact hmid _ _ _
    have h1' : promptP2b.data <:+: promptP2.data := by
      unfold promptP2
      exact ⟨(".\n            " ++ ruleOneHour).data, [], by
        simp only [String.data_append, List.append_assoc, List.append_nil]⟩
    exact (h1.trans h1').trans h2

/-! ## C7: the message filter -/

/-- C7: a message authored by the bot itself, or whose channel differs from
the configured target channel, is discarded with no side effects at all: the
action trace is empty (no reaction, no model call, no webhook call, no reply,
no print) and the handler returns normally. -/
theorem C7_filtered_no_side_effects (cfg : Config) (env : Env) (msg : Msg)
    (h : msg.authorIsBot = true ∨ msg.channelName ≠ targetChannelName) :
    on_message cfg env msg = ([], .completed) := by
  rcases h with h | h
  · simp [on_message, h]
  · by_cases hb : msg.authorIsBot
    · simp [on_message, hb]
    · simp [on_message, hb, h]

/-- Witness for `C7_filtered_no_side_effects` on a message in another
channel. -/
theorem C7_witness :
    on_message cfgAll envNeutral ⟨false, "general", "hello"⟩ = ([], .completed) :=
  C7_filtered_no_side_effects cfgAll envNeutral ⟨false, "general", "hello"⟩
    (Or.inr (by decide))

/-! ## C8: configuration gating -/

/-- C8, as stated, fails on a bot-authored message in the target channel when
the model key is missing: the handler returns with an empty trace — no
warning is printed, contradicting "for every message in the target channel
the handler prints a warning". -/
theorem C8_stated_counterexample :
    on_message ⟨true, false, true⟩ envNeutral ⟨true, "calendar-agent", "hi"⟩ = ([], .completed) := by
  rfl

/-- C8 (amended, restricted to messages not authored by the bot itself):
without the Discord token the process prints the warning and never reaches
`client.run`; with it the client is started; and when the model key (resp.
the webhook URL) is missing, every non-bot message in the target channel
produces exactly the warning print and a normal return — no reaction, no
model call, no webhook call, no reply. -/
theorem C8_config_gating :
    (∀ cfg : Config, cfg.discordTokenPresent = false →
      main cfg = ([.printLine "DISCORD_TOKEN not found in .env file. Bot cannot start."], false)) ∧
      (∀ cfg : Config, cfg.discordTokenPresent = true → main cfg = ([], true)) ∧
      (∀ (cfg : Config) (env : Env) (msg : Msg), msg.authorIsBot = false →
        msg.channelName = targetChannelName → cfg.geminiConfigured = false →
        on_message cfg env msg =
          ([.printLine "Gemini model not initialized. Skipping message processing."], .completed)) ∧
      (∀ (cfg : Config) (env : Env) (msg : Msg), msg.authorIsBot = false →
        msg.channelName = targetChannelName → cfg.geminiConfigured = true →
        cfg.webhookConfigured = false →
        on_message cfg env msg =
          ([.printLine "Make.com webhook URL not configured. Skipping message processing."],
            .completed)) := by
  refine ⟨fun cfg h => by simp [main, h], fun cfg h => by simp [main, h],
    fun cfg env msg h1 h2 h3 => by simp [on_message, h1, h2, h3],
    fun cfg env msg h1 h2 h3 h4 => by simp [on_message, h1, h2, h3, h4]⟩

/-- Witness for `C8_config_gating`: missing model key short-circuits with the
warning. -/
theorem C8_witness :
    on_message ⟨true, false, true⟩ envNeutral msgUser =
      ([.printLine "Gemini model not initialized. Skipping message processing."], .completed) :=
  C8_config_gating.2.2.1 ⟨true, false, true⟩ envNeutral msgUser rfl rfl rfl

/-! ## C1 and C6: the broken `except main.NotFound` guards -/

/-- C1 fails on the code: when an exception reaches the `except Exception`
handler and the thinking reaction is already gone, evaluating
`except main.NotFound` (`main` is the module-level function) raises
`AttributeError`, which escapes `on_message` — the handler terminates without
adding the error reaction and without sending the capped reply.  Here the
first removal inside the `try` suite fails (its `AttributeError` is caught by
`except Exception`), and the removal inside that handler fails again. -/
theorem C1_unexpected_failure_escapes :
    (on_message cfgAll envRemovalBroken msgUser).2 = .raised .attributeError ∧
      Action.addReaction errorE ∉ (on_message cfgAll envRemovalBroken msgUser).1 ∧
      ((on_message cfgAll envRemovalBroken msgUser).1.all fun a => !a.isSend) = true := by
  refine ⟨rfl, by decide, by decide⟩

/-- C6 fails on the code: a failing defensive removal is not absorbed.  On a
content-safety block with the thinking reaction already gone, the
blocked-prompt handler's `except main.NotFound` clause raises
`AttributeError`, the handler terminates, and neither the "blocked" reaction
nor the fixed safety reply happens. -/
theorem C6_removal_failure_not_absorbed :
    (on_message cfgAll envBlockedBroken msgUser).2 = .raised .attributeError ∧
      Action.addReaction blockedE ∉ (on_message cfgAll envBlockedBroken msgUser).1 ∧
      ((on_message cfgAll envBlockedBroken msgUser).1.all fun a => !a.isSend) = true := by
  refine ⟨rfl, by decide, by decide⟩

/-! ## C4, C5, C10: routing of the parsed record -/

/-- C4: a message whose model response parses to the empty JSON object takes
the "no event found" outcome: no webhook POST ever happens (whether or not
the defensive removal fails), and on the normal path the handler completes
with the shrug reaction, no error reaction and no reply. -/
theorem C4_empty_object_no_event (cfg : Config) (env : Env) (msg : Msg) (raw : String)
    (hbot : msg.authorIsBot = false) (hch : msg.channelName = targetChannelName)
    (hg : cfg.geminiConfigured = true) (hw : cfg.webhookConfigured = true)
    (hm : env.modelOutcome = .text raw)
    (hp : extractAndParse raw.data = .ok (Json.obj [])) :
    (∀ b, Action.webhookPost b ∉ (on_message cfg env msg).1) ∧
      (env.removeAfterModelFails = false →
        (on_message cfg env msg).2 = .completed ∧
          Action.addReaction shrugE ∈ (on_message cfg env msg).1 ∧
          Action.addReaction errorE ∉ (on_message cfg env msg).1 ∧
          ∀ t, Action.send t ∉ (on_message cfg env msg).1) := by
  by_cases hr : env.removeAfterModelFails
  · constructor
    · intro b
      by_cases hu : env.removeInUnexpectedFails <;>
        simp [on_message, hbot, hch, hg, hw, tryBody, hm, hr, unexpectedHandler, hu]
    · intro hcontra
      rw [hr] at hcontra
      exact absurd hcontra (by decide)
  · rw [Bool.not_eq_true] at hr
    constructor
    · intro b
      simp [on_message, hbot, hch, hg, hw, tryBody, hm, hr, hp, pyTruthy]
    · intro _
      refine ⟨?_, ?_, ?_, ?_⟩ <;>
        simp [on_message, hbot, hch, hg, hw, tryBody, hm, hr, hp, pyTruthy, shrugE, errorE,
          thinkingE]

/-- Witness for `C4_empty_object_no_event`: the model answers `"{}"`. -/
theorem C4_witness :
    (on_message cfgAll envNeutral msgUser).2 = .completed ∧
      Action.addReaction shrugE ∈ (on_message cfgAll envNeutral msgUser).1 ∧
      Action.addReaction errorE ∉ (on_message cfgAll envNeutral msgUser).1 ∧
      ∀ t, Action.send t ∉ (on_message cfgAll envNeutral msgUser).1 :=
  (C4_empty_object_no_event cfgAll envNeutral msgUser "\x7b\x7d"
    rfl rfl rfl rfl rfl (by rfl)).2 rfl

/-- C5: on a non-empty parsed record the handler issues exactly one webhook
POST, with the record as JSON body; a 2xx response yields the success
reaction, no reply and normal completion, and a non-2xx response yields the
warning reaction and the reply carrying the status code and the body capped
at 1500 characters. -/
theorem C5_forward_nonempty_record (cfg : Config) (env : Env) (msg : Msg) (raw : String)
    (ms : List (List Char × Json))
    (hbot : msg.authorIsBot = false) (hch : msg.channelName = targetChannelName)
    (hg : cfg.geminiConfigured = true) (hw : cfg.webhookConfigured = true)
    (hm : env.modelOutcome = .text raw) (hr : env.removeAfterModelFails = false)
    (hp : extractAndParse raw.data = .ok (Json.obj ms)) (hne : ms ≠ []) :
    (on_message cfg env msg).1.filter Action.isWebhookPost =
        [Action.webhookPost (dumps (Json.obj ms))] ∧
      (∀ st body, env.webhook = .response st body →
        ((200 ≤ st ∧ st < 300) →
          Action.addReaction successE ∈ (on_message cfg env msg).1 ∧
            ((on_message cfg env msg).1.all fun a => !a.isSend) = true ∧
            (on_message cfg env msg).2 = .completed) ∧
        (¬ (200 ≤ st ∧ st < 300) →
          Action.addReaction warningE ∈ (on_message cfg env msg).1 ∧
            Action.send ("Error sending to calendar: " ++ toString st ++ " - "
              ++ pyTake 1500 body) ∈ (on_message cfg env msg).1 ∧
            (on_message cfg env msg).2 = .completed)) := by
  have htr : pyTruthy (Json.obj ms) = true := by
    simp [pyTruthy, List.isEmpty_iff, hne]
  constructor
  · rcases hwb : env.webhook with ⟨st, body⟩ | d
    · by_cases h2 : 200 ≤ st ∧ st < 300 <;>
        simp [on_message, hbot, hch, hg, hw, tryBody, hm, hr, hp, htr, hwb, h2,
          Action.isWebhookPost]
    · by_cases hu : env.removeInUnexpectedFails <;>
        simp [on_message, hbot, hch, hg, hw, tryBody, hm, hr, hp, htr, hwb, hu,
          unexpectedHandler, Action.isWebhookPost]
  · intro st body hwb
    constructor
    · intro h2
      refine ⟨?_, ?_, ?_⟩ <;>
        simp [on_message, hbot, hch, hg, hw, tryBody, hm, hr, hp, htr, hwb, h2, successE,
          Action.isSend]
    · intro h2
      refine ⟨?_, ?_, ?_⟩ <;>
        simp [on_message, hbot, hch, hg, hw, tryBody, hm, hr, hp, htr, hwb, h2, warningE]

/-- Witness for `C5_forward_nonempty_record`: the model answers
`"{\"a\": 1}"` and the webhook answers 500. -/
theorem C5_witness :
    Action.addReaction warningE ∈
        (on_message cfgAll
          ⟨"2026-10-12", .text "\x7b\"a\": 1\x7d", false, false, false, .response 500 "boom"⟩
          msgUser).1 ∧
      Action.send ("Error sending to calendar: " ++ toString 500 ++ " - "
        ++ pyTake 1500 "boom") ∈
        (on_message cfgAll
          ⟨"2026-10-12", .text "\x7b\"a\": 1\x7d", false, false, false, .response 500 "boom"⟩
          msgUser).1 ∧
      (on_message cfgAll
        ⟨"2026-10-12", .text "\x7b\"a\": 1\x7d", false, false, false, .response 500 "boom"⟩
        msgUser).2 = .completed :=
  ((C5_forward_nonempty_record cfgAll
      ⟨"2026-10-12", .text "\x7b\"a\": 1\x7d", false, false, false, .response 500 "boom"⟩
      msgUser "\x7b\"a\": 1\x7d" [("a".data, Json.num ['1'])]
      rfl rfl rfl rfl rfl rfl (by rfl) (List.cons_ne_nil _ _)).2 500 "boom" rfl).2 (by decide)

/-- A webhook POST recorded by the `try` suite comes from a successfully
parsed, truthy record, and its body is that record serialised. -/
theorem tryBody_webhook_mem {env : Env} {msg : Msg} {b : List Char}
    (h : Action.webhookPost b ∈ (tryBody env msg).1) :
    ∃ raw j, env.modelOutcome = .text raw ∧ extractAndParse raw.data = .ok j ∧
      pyTruthy j = true ∧ b = dumps j := by
  rcases hm : env.modelOutcome with raw | _ | desc
  · by_cases hr : env.removeAfterModelFails
    · simp [tryBody, hm, hr] at h
    · rcases hp : extractAndParse raw.data with k | j
      · simp [tryBody, hm, hr, hp] at h
      · by_cases ht : pyTruthy j
        · rcases hwb : env.webhook with ⟨st, body⟩ | d
          · by_cases h2 : 200 ≤ st ∧ st < 300
            · simp [tryBody, hm, hr, hp, ht, hwb, h2] at h
              exact ⟨raw, j, rfl, hp, ht, h⟩
            · simp [tryBody, hm, hr, hp, ht, hwb, h2] at h
              exact ⟨raw, j, rfl, hp, ht, h⟩
          · simp [tryBody, hm, hr, hp, ht, hwb] at h
            exact ⟨raw, j, rfl, hp, ht, h⟩
        · rw [Bool.not_eq_true] at ht
          simp [tryBody, hm, hr, hp, ht] at h
  · simp [tryBody, hm] at h
  · simp [tryBody, hm] at h

/-- C10: a webhook POST happens only after a successful parse of a non-empty
(truthy) record — on every failure path (no JSON found, empty extraction,
malformed JSON, content-safety block, model failure, broken reaction removal,
configuration short-circuit, filtered message) the trace contains no webhook
POST, and any POST that does appear carries a successfully parsed truthy
record as its body. -/
theorem C10_webhook_only_after_parse (cfg : Config) (env : Env) (msg : Msg) (b : List Char)
    (h : Action.webhookPost b ∈ (on_message cfg env msg).1) :
    ∃ raw j, env.modelOutcome = .text raw ∧ extractAndParse raw.data = .ok j ∧
      pyTruthy j = true ∧ b = dumps j := by
  by_cases hbot : msg.authorIsBot
  · simp [on_message, hbot] at h
  · by_cases hch : msg.channelName = targetChannelName
    · by_cases hg : cfg.geminiConfigured
      · by_cases hw : cfg.webhookConfigured
        · rcases htb : tryBody env msg with ⟨acts, res⟩
          have hacts : Action.webhookPost b ∈ acts →
              ∃ raw j, env.modelOutcome = .text raw ∧ extractAndParse raw.data = .ok j ∧
                pyTruthy j = true ∧ b = dumps j := by
            intro hin
            exact tryBody_webhook_mem
              (show Action.webhookPost b ∈ (tryBody env msg).1 by rw [htb]; exact hin)
          rcases res with e | u
          · cases e with
            | jsonDecode k raw =>
              simp [on_message, hbot, hch, hg, hw, htb] at h
              rcases h with h | h
              · exact hacts h
              · simp [jsonDecodeHandler] at h
            | blockedPrompt =>
              simp [on_message, hbot, hch, hg, hw, htb] at h
              rcases h with h | h
              · exact hacts h
              · by_cases hbl : env.removeInBlockedFails
                · simp [blockedHandler, hbl] at h
                · simp [blockedHandler, hbl] at h
            | attributeError =>
              simp [on_message, hbot, hch, hg, hw, htb] at h
              rcases h with h | h
              · exact hacts h
              · by_cases hu : env.removeInUnexpectedFails
                · simp [unexpectedHandler, hu] at h
                · simp [unexpectedHandler, hu] at h
            | generic desc =>
              simp [on_message, hbot, hch, hg, hw, htb] at h
              rcases h with h | h
              · exact hacts h
              · by_cases hu : env.removeInUnexpectedFails
                · simp [unexpectedHandler, hu] at h
                · simp [unexpectedHandler, hu] at h
          · cases u
            simp [on_message, hbot, hch, hg, hw, htb] at h
            exact hacts h
        · simp [on_message, hbot, hch, hg, hw] at h
      · simp [on_message, hbot, hch, hg] at h
    · simp [on_message, hbot, hch] at h

/-! ## Lemmas towards C3: occurrences inside concatenations -/

/-- Two prefixes of one list are comparable (alias). -/
theorem prefixTotal {l₁ l₂ l₃ : List Char} (h₁ : l₁ <+: l₃) (h₂ : l₂ <+: l₃) :
    l₁ <+: l₂ ∨ l₂ <+: l₁ :=
  List.prefix_or_prefix_of_prefix h₁ h₂

/-- An infix occurrence cannot straddle a character that is not in the
pattern: it lies wholly on one side. -/
theorem infix_split_char {sep : List Char} {c : Char} (hc : c ∉ sep) (x y : List Char) :
    sep <:+: (x ++ c :: y) ↔ sep <:+: x ∨ sep <:+: y := by
  induction x with
  | nil =>
    simp only [List.nil_append]
    constructor
    · intro h
      rcases List.infix_cons_iff.mp h with hp | hi
      · rcases sep with _ | ⟨s0, sep'⟩
        · exact Or.inl (List.nil_infix)
        · rcases List.cons_prefix_cons.mp hp with ⟨rfl, _⟩
          exact absurd (List.mem_cons_self _ _) hc
      · exact Or.inr hi
    · rintro (h | h)
      · rcases h with ⟨p, q, hpq⟩
        have : sep = [] := (List.append_eq_nil.mp (List.append_eq_nil.mp hpq).1).2
        subst this
        exact List.nil_infix
      · exact List.infix_cons h
  | cons a x' ih =>
    simp only [List.cons_append]
    constructor
    · intro h
      rcases List.infix_cons_iff.mp h with hp | hi
      · left
        by_cases hlen : sep.length ≤ (a :: x').length
        · exact ((List.isPrefix_append_of_length hlen).mp
            (by simpa using hp)).isInfix
        · exfalso
          have hx : a :: x' <+: a :: x' ++ c :: y := List.prefix_append _ _
          have hp' : sep <+: a :: x' ++ c :: y := by simpa using hp
          rcases prefixTotal hp' hx with hc1 | hc1
          · exact hlen hc1.length_le
          · rcases hc1 with ⟨t, ht⟩
            have ht' : t <+: c :: y := by
              have h2 := hp'
              nth_rewrite 1 [← ht] at h2
              exact (List.prefix_append_right_inj (a :: x')).mp h2
            rcases t with _ | ⟨t0, t'⟩
            · apply hlen
              rw [← ht, List.append_nil]
            · rcases List.cons_prefix_cons.mp ht' with ⟨rfl, _⟩
              exact hc (by rw [← ht]; exact List.mem_append_right _ (List.mem_cons_self _ _))
      · rcases (ih).mp hi with h' | h'
        · exact Or.inl (List.infix_cons h')
        · exact Or.inr h'
    · rintro (h | h)
      · rcases List.infix_cons_iff.mp h with hp | hi
        · exact List.infix_cons_iff.mpr (Or.inl (hp.trans (List.prefix_append _ _)))
        · exact List.infix_cons (ih.mpr (Or.inl hi))
      · exact List.infix_cons (ih.mpr (Or.inr h))

/-- No occurrence of `sep` starts inside a clean left part `x`: "clean"
means `sep` does not occur in `x` extended by all but the last character of
`sep` (an occurrence starting inside `x` reaches at most that far into the
planted separator). -/
theorem sep_not_prefix_of_clean {sep x b : List Char} (hx : x ≠ [])
    (H : ¬ sep <:+: (x ++ sep.take (sep.length - 1))) :
    ¬ sep <+: x ++ (sep ++ b) := by
  intro hp
  apply H
  by_cases hlen : sep.length ≤ x.length
  · exact ((List.isPrefix_append_of_length hlen).mp hp).isInfix.trans
      (List.prefix_append _ _).isInfix
  · have hxp : x <+: x ++ (sep ++ b) := List.prefix_append _ _
    rcases prefixTotal hp hxp with hc1 | hc1
    · exact absurd hc1.length_le hlen
    · rcases hc1 with ⟨t, ht⟩
      have ht' : t <+: sep ++ b := by
        have h2 := hp
        nth_rewrite 1 [← ht] at h2
        exact (List.prefix_append_right_inj x).mp h2
      have hxlen : 1 ≤ x.length := List.length_pos.mpr hx
      have htlen : t.length ≤ sep.length - 1 := by
        have h1 : x.length + t.length = sep.length := by
          rw [← ht, List.length_append]
        omega
      have hslen : 1 ≤ sep.length := by omega
      have ht2 : t <+: sep := (List.isPrefix_append_of_length (by omega)).mp ht'
      have ht3 : t <+: sep.take (sep.length - 1) := List.prefix_take_iff.mpr ⟨ht2, htlen⟩
      have h4 : sep <+: x ++ sep.take (sep.length - 1) := by
        nth_rewrite 1 [← ht]
        exact (List.prefix_append_right_inj x).mpr ht3
      exact h4.isInfix

/-- The scan stops exactly at a separator planted after a clean left part. -/
theorem upToFirst_append {sep : List Char} (hsep : sep ≠ []) :
    ∀ {a : List Char} (b : List Char), ¬ sep <:+: (a ++ sep.take (sep.length - 1)) →
      upToFirst sep (a ++ (sep ++ b)) = a := by
  intro a
  induction a with
  | nil =>
    intro b _
    rcases hs : sep with _ | ⟨s0, sep'⟩
    · exact absurd hs hsep
    · rw [List.nil_append,
        show (s0 :: sep') ++ b = s0 :: (sep' ++ b) from rfl, upToFirst, if_pos]
      exact isPrefixOf_eq_true_iff.mpr (List.prefix_append (s0 :: sep') b)
  | cons a0 a' ih =>
    intro b H
    have hne : ¬ sep <+: (a0 :: a') ++ (sep ++ b) :=
      sep_not_prefix_of_clean (List.cons_ne_nil _ _) H
    rw [show (a0 :: a') ++ (sep ++ b) = a0 :: (a' ++ (sep ++ b)) from rfl, upToFirst, if_neg]
    · rw [ih b (fun h => H (List.infix_cons h))]
    · exact fun hp => hne (isPrefixOf_eq_true_iff.mp hp)

/-- The companion of `upToFirst_append` for the remainder. -/
theorem afterFirst_append {sep : List Char} (hsep : sep ≠ []) :
    ∀ {a : List Char} (b : List Char), ¬ sep <:+: (a ++ sep.take (sep.length - 1)) →
      afterFirst sep (a ++ (sep ++ b)) = b := by
  intro a
  induction a with
  | nil =>
    intro b _
    rcases hs : sep with _ | ⟨s0, sep'⟩
    · exact absurd hs hsep
    · rw [List.nil_append,
        show (s0 :: sep') ++ b = s0 :: (sep' ++ b) from rfl, afterFirst, if_pos]
      · exact List.drop_left (s0 :: sep') b
      · exact isPrefixOf_eq_true_iff.mpr (List.prefix_append (s0 :: sep') b)
  | cons a0 a' ih =>
    intro b H
    have hne : ¬ sep <+: (a0 :: a') ++ (sep ++ b) :=
      sep_not_prefix_of_clean (List.cons_ne_nil _ _) H
    rw [show (a0 :: a') ++ (sep ++ b) = a0 :: (a' ++ (sep ++ b)) from rfl, afterFirst, if_neg]
    · exact ih b (fun h => H (List.infix_cons h))
    · exact fun hp => hne (isPrefixOf_eq_true_iff.mp hp)

/-- Witness for `C10_webhook_only_after_parse`: the POST that the success
scenario records indeed comes from the parsed record. -/
theorem C10_witness :
    ∃ raw j, (⟨"2026-10-12", .text "\x7b\"a\": 1\x7d", false, false, false,
        .response 200 "Accepted"⟩ : Env).modelOutcome = .text raw ∧
      extractAndParse raw.data = .ok j ∧ pyTruthy j = true ∧
      dumps (Json.obj [("a".data, Json.num ['1'])]) = dumps j :=
  C10_webhook_only_after_parse cfgAll
    ⟨"2026-10-12", .text "\x7b\"a\": 1\x7d", false, false, false, .response 200 "Accepted"⟩
    msgUser (dumps (Json.obj [("a".data, Json.num ['1'])])) (by decide)

/-! ## Lemmas towards C3: string escape round trip -/

/-- Decoding one serialised hexadecimal digit. -/
theorem hexVal_hexDig : ∀ k : Nat, k < 16 → hexVal (hexDig k) = some k := by
  intro k hk
  interval_cases k <;> decide

/-- Decoding the four serialised hexadecimal digits of `n < 0x10000`. -/
theorem hex4_hexDigits {n : Nat} (hn : n < 65536) :
    hex4 (hexDig (n / 4096 % 16)) (hexDig (n / 256 % 16)) (hexDig (n / 16 % 16))
      (hexDig (n % 16)) = some n := by
  simp only [hex4, hexVal_hexDig _ (Nat.mod_lt _ (by omega)), Option.some.injEq]
  omega

/-- Every `Char` is a Unicode scalar value: below the surrogate range or
above it and below `0x110000`. -/
theorem char_scalar (c : Char) : c.toNat < 55296 ∨ (57344 ≤ c.toNat ∧ c.toNat < 1114112) := by
  rcases c.valid with h | ⟨h1, h2⟩
  · exact Or.inl h
  · exact Or.inr ⟨by exact h1, h2⟩

/-- Scanning one literal (unescaped) character. -/
theorem parseStringGo_lit {c : Char} (h1 : ¬ c = '"') (h2 : ¬ c = '\\')
    (h3 : ¬ c.toNat < 32) (f : Nat) (X : List Char) :
    parseStringGo (f + 1) (c :: X) = (parseStringGo f X).map (fun p => (c :: p.1, p.2)) := by
  rw [parseStringGo.eq_def]
  simp only [if_neg h1, if_neg h2, if_neg h3]

/-- Scanning one two-character escape. -/
theorem parseStringGo_esc2 {e ch : Char} (hesc : escTable e = some ch) (he : ¬ e = 'u')
    (f : Nat) (X : List Char) :
    parseStringGo (f + 1) ('\\' :: e :: X) =
      (parseStringGo f X).map (fun p => (ch :: p.1, p.2)) := by
  rw [parseStringGo.eq_def]
  simp [he, hesc]

/-- Scanning one `\uXXXX` escape outside the surrogate range. -/
theorem parseStringGo_escU {n : Nat} (hn : n < 65536) (hs : ¬ (55296 ≤ n ∧ n ≤ 56319))
    (f : Nat) (X : List Char) :
    parseStringGo (f + 1)
        ('\\' :: 'u' :: hexDig (n / 4096 % 16) :: hexDig (n / 256 % 16) ::
          hexDig (n / 16 % 16) :: hexDig (n % 16) :: X) =
      (parseStringGo f X).map (fun p => (Char.ofNat n :: p.1, p.2)) := by
  rw [parseStringGo.eq_def]
  simp [hex4_hexDigits hn, hs]

/-- Scanning a high/low surrogate `\uXXXX` pair. -/
theorem parseStringGo_escPair {hi lo : Nat} (hhi1 : 55296 ≤ hi) (hhi2 : hi ≤ 56319)
    (hlo1 : 56320 ≤ lo) (hlo2 : lo ≤ 57343) (f : Nat) (X : List Char) :
    parseStringGo (f + 1)
        ('\\' :: 'u' :: hexDig (hi / 4096 % 16) :: hexDig (hi / 256 % 16) ::
          hexDig (hi / 16 % 16) :: hexDig (hi % 16) ::
          '\\' :: 'u' :: hexDig (lo / 4096 % 16) :: hexDig (lo / 256 % 16) ::
          hexDig (lo / 16 % 16) :: hexDig (lo % 16) :: X) =
      (parseStringGo f X).map
        (fun p => (Char.ofNat (65536 + (hi - 55296) * 1024 + (lo - 56320)) :: p.1, p.2)) := by
  rw [parseStringGo.eq_def]
  simp [hex4_hexDigits (show hi < 65536 by omega), hex4_hexDigits (show lo < 65536 by omega),
    show 55296 ≤ hi ∧ hi ≤ 56319 from ⟨hhi1, hhi2⟩,
    show 56320 ≤ lo ∧ lo ≤ 57343 from ⟨hlo1, hlo2⟩]

/-- Every escape produces at least one character. -/
theorem escChar_len_pos (c : Char) : 1 ≤ (escChar c).length := by
  rw [escChar]
  by_cases h1 : c = '"'
  · rw [if_pos h1]
    simp
  · rw [if_neg h1]
    by_cases h2 : c = '\\'
    · rw [if_pos h2]
      simp
    · rw [if_neg h2]
      by_cases h3 : c = '\n'
      · rw [if_pos h3]
        simp
      · rw [if_neg h3]
        by_cases h4 : c = '\r'
        · rw [if_pos h4]
          simp
        · rw [if_neg h4]
          by_cases h5 : c = '\t'
          · rw [if_pos h5]
            simp
          · rw [if_neg h5]
            by_cases h6 : c = '\x08'
            · rw [if_pos h6]
              simp
            · rw [if_neg h6]
              by_cases h7 : c = '\x0c'
              · rw [if_pos h7]
                simp
              · rw [if_neg h7]
                by_cases h8 : c.toNat < 32
                · rw [if_pos h8]
                  simp
                · rw [if_neg h8]
                  by_cases h9 : c.toNat < 127
                  · rw [if_pos h9]
                    simp
                  · rw [if_neg h9]
                    by_cases h10 : c.toNat < 65536
                    · rw [if_pos h10]
                      simp
                    · rw [if_neg h10]
                      simp

/-- Scanning an escaped body stops at the closing quote and recovers the
original characters. -/
theorem rt_stringGo (v : List Char) :
    ∀ (f : Nat) (rest : List Char), (escBody v).length < f →
      parseStringGo f (escBody v ++ '"' :: rest) = some (v, rest) := by
  induction v with
  | nil =>
    intro f rest hf
    match f, hf with
    | f' + 1, _ => rfl
  | cons c v' ih =>
    intro f rest hf
    rcases f with _ | f'
    · exact absurd hf (by omega)
    · have hflen : (escChar c).length + (escBody v').length < f' + 1 := by
        simpa [escBody, List.length_append] using hf
      have hb : (escBody v').length < f' := by
        have := escChar_len_pos c
        omega
      rw [show escBody (c :: v') ++ '"' :: rest = escChar c ++ (escBody v' ++ '"' :: rest) by
        simp [escBody, List.append_assoc]]
      by_cases h1 : c = '"'
      · subst h1
        rw [show escChar '"' = ['\\', '"'] from rfl]
        rw [show (['\\', '"'] : List Char) ++ (escBody v' ++ '"' :: rest) =
          '\\' :: '"' :: (escBody v' ++ '"' :: rest) from rfl]
        rw [parseStringGo_esc2 (show escTable '"' = some '"' from rfl) (by decide),
          ih f' rest hb]
        rfl
      · by_cases h2 : c = '\\'
        · subst h2
          rw [show escChar '\\' = ['\\', '\\'] from rfl]
          rw [show (['\\', '\\'] : List Char) ++ (escBody v' ++ '"' :: rest) =
            '\\' :: '\\' :: (escBody v' ++ '"' :: rest) from rfl]
          rw [parseStringGo_esc2 (show escTable '\\' = some '\\' from rfl) (by decide),
            ih f' rest hb]
          rfl
        · by_cases h3 : c = '\n'
          · subst h3
            rw [show escChar '\n' = ['\\', 'n'] from rfl]
            rw [show (['\\', 'n'] : List Char) ++ (escBody v' ++ '"' :: rest) =
              '\\' :: 'n' :: (escBody v' ++ '"' :: rest) from rfl]
            rw [parseStringGo_esc2 (show escTable 'n' = some '\n' from rfl) (by decide),
              ih f' rest hb]
            rfl
          · by_cases h4 : c = '\r'
            · subst h4
              rw [show escChar '\r' = ['\\', 'r'] from rfl]
              rw [show (['\\', 'r'] : List Char) ++ (escBody v' ++ '"' :: rest) =
                '\\' :: 'r' :: (escBody v' ++ '"' :: rest) from rfl]
              rw [parseStringGo_esc2 (show escTable 'r' = some '\r' from rfl) (by decide),
                ih f' rest hb]
              rfl
            · by_cases h5 : c = '\t'
              · subst h5
                rw [show escChar '\t' = ['\\', 't'] from rfl]
                rw [show (['\\', 't'] : List Char) ++ (escBody v' ++ '"' :: rest) =
                  '\\' :: 't' :: (escBody v' ++ '"' :: rest) from rfl]
                rw [parseStringGo_esc2 (show escTable 't' = some '\t' from rfl) (by decide),
                  ih f' rest hb]
                rfl
              · by_cases h6 : c = '\x08'
                · subst h6
                  rw [show escChar '\x08' = ['\\', 'b'] from rfl]
                  rw [show (['\\', 'b'] : List Char) ++ (escBody v' ++ '"' :: rest) =
                    '\\' :: 'b' :: (escBody v' ++ '"' :: rest) from rfl]
                  rw [parseStringGo_esc2 (show escTable 'b' = some '\x08' from rfl) (by decide),
                    ih f' rest hb]
                  rfl
                · by_cases h7 : c = '\x0c'
                  · subst h7
                    rw [show escChar '\x0c' = ['\\', 'f'] from rfl]
                    rw [show (['\\', 'f'] : List Char) ++ (escBody v' ++ '"' :: rest) =
                      '\\' :: 'f' :: (escBody v' ++ '"' :: rest) from rfl]
                    rw [parseStringGo_esc2 (show escTable 'f' = some '\x0c' from rfl) (by decide),
                      ih f' rest hb]
                    rfl
                  · by_cases h8 : c.toNat < 32
                    · have he : escChar c =
                          ['\\', 'u', hexDig (c.toNat / 4096 % 16), hexDig (c.toNat / 256 % 16),
                           hexDig (c.toNat / 16 % 16), hexDig (c.toNat % 16)] := by
                        rw [escChar]
                        simp only [if_neg h1, if_neg h2, if_neg h3, if_neg h4, if_neg h5,
                          if_neg h6, if_neg h7, if_pos h8]
                      rw [he]
                      rw [show (['\\', 'u', hexDig (c.toNat / 4096 % 16), hexDig (c.toNat / 256 % 16),
                           hexDig (c.toNat / 16 % 16), hexDig (c.toNat % 16)] : List Char)
                           ++ (escBody v' ++ '"' :: rest) =
                        '\\' :: 'u' :: hexDig (c.toNat / 4096 % 16) :: hexDig (c.toNat / 256 % 16) ::
                          hexDig (c.toNat / 16 % 16) :: hexDig (c.toNat % 16) ::
                          (escBody v' ++ '"' :: rest) from rfl]
                      rw [parseStringGo_escU (by omega) (by omega), ih f' rest hb]
                      simp [Char.ofNat_toNat]
                    · by_cases h9 : c.toNat < 127
                      · have he : escChar c = [c] := by
                          rw [escChar]
                          simp only [if_neg h1, if_neg h2, if_neg h3, if_neg h4, if_neg h5,
                            if_neg h6, if_neg h7, if_neg h8, if_pos h9]
                        rw [he]
                        rw [show ([c] : List Char) ++ (escBody v' ++ '"' :: rest) =
                          c :: (escBody v' ++ '"' :: rest) from rfl]
                        rw [parseStringGo_lit h1 h2 h8, ih f' rest hb]
                        rfl
                      · by_cases h10 : c.toNat < 65536
                        · have he : escChar c =
                              ['\\', 'u', hexDig (c.toNat / 4096 % 16), hexDig (c.toNat / 256 % 16),
                               hexDig (c.toNat / 16 % 16), hexDig (c.toNat % 16)] := by
                            rw [escChar]
                            simp only [if_neg h1, if_neg h2, if_neg h3, if_neg h4, if_neg h5,
                              if_neg h6, if_neg h7, if_neg h8, if_neg h9, if_pos h10]
                          have hnosurr : ¬ (55296 ≤ c.toNat ∧ c.toNat ≤ 56319) := by
                            rcases char_scalar c with hcv | hcv <;> omega
                          rw [he]
                          rw [show (['\\', 'u', hexDig (c.toNat / 4096 % 16),
                               hexDig (c.toNat / 256 % 16), hexDig (c.toNat / 16 % 16),
                               hexDig (c.toNat % 16)] : List Char)
                               ++ (escBody v' ++ '"' :: rest) =
                            '\\' :: 'u' :: hexDig (c.toNat / 4096 % 16) ::
                              hexDig (c.toNat / 256 % 16) :: hexDig (c.toNat / 16 % 16) ::
                              hexDig (c.toNat % 16) :: (escBody v' ++ '"' :: rest) from rfl]
                          rw [parseStringGo_escU h10 hnosurr, ih f' rest hb]
                          simp [Char.ofNat_toNat]
                        · have hup : c.toNat < 1114112 := by
                            rcases char_scalar c with hcv | hcv <;> omega
                          have he : escChar c =
                              ['\\', 'u',
                               hexDig ((55296 + (c.toNat - 65536) / 1024) / 4096 % 16),
                               hexDig ((55296 + (c.toNat - 65536) / 1024) / 256 % 16),
                               hexDig ((55296 + (c.toNat - 65536) / 1024) / 16 % 16),
                               hexDig ((55296 + (c.toNat - 65536) / 1024) % 16),
                               '\\', 'u',
                               hexDig ((56320 + (c.toNat - 65536) % 1024) / 4096 % 16),
                               hexDig ((56320 + (c.toNat - 65536) % 1024) / 256 % 16),
                               hexDig ((56320 + (c.toNat - 65536) % 1024) / 16 % 16),
                               hexDig ((56320 + (c.toNat - 65536) % 1024) % 16)] := by
                            rw [escChar]
                            simp only [if_neg h1, if_neg h2, if_neg h3, if_neg h4, if_neg h5,
                              if_neg h6, if_neg h7, if_neg h8, if_neg h9, if_neg h10]
                          rw [he]
                          rw [List.cons_append, List.cons_append, List.cons_append,
                            List.cons_append, List.cons_append, List.cons_append,
                            List.cons_append, List.cons_append, List.cons_append,
                            List.cons_append, List.cons_append, List.cons_append,
                            List.nil_append]
                          rw [parseStringGo_escPair (by omega) (by omega) (by omega) (by omega),
                            ih f' rest hb]
                          have harith : 65536 + (55296 + (c.toNat - 65536) / 1024 - 55296) * 1024
                              + (56320 + (c.toNat - 65536) % 1024 - 56320) = c.toNat := by
                            omega
                          rw [harith, Char.ofNat_toNat]
                          rfl

/-- The string scanner with its own fuel. -/
theorem rt_stringBody (v rest : List Char) :
    parseStringBody (escBody v ++ '"' :: rest) = some (v, rest) := by
  rw [parseStringBody]
  apply rt_stringGo
  simp [List.length_append]
  omega

/-- One-step unfolding of the value scanner at a string. -/
theorem parseValue_quote (f : Nat) (X : List Char) :
    parseValue (f + 1) ('"' :: X) = (parseStringBody X).map (fun p => (Json.str p.1, p.2)) := rfl

/-- One-step unfolding of the member scanner at a key. -/
theorem parseMembers_cons_eq (f : Nat) (Y : List Char) :
    parseMembers (f + 1) ('"' :: Y) =
      (match parseStringBody Y with
       | none => none
       | some (k, r1) =>
         match skipWs r1 with
         | ':' :: r2 =>
           (match parseValue f (skipWs r2) with
            | none => none
            | some (v, r3) =>
              match skipWs r3 with
              | '}' :: r4 => some ([(k, v)], r4)
              | ',' :: r4 =>
                (match parseMembers f (skipWs r4) with
                 | some (ms, r5) => some ((k, v) :: ms, r5)
                 | none => none)
              | _ => none)
         | _ => none) := rfl

/-- Whitespace skipping stops at a colon. -/
theorem skipWs_colon (X : List Char) : skipWs (':' :: X) = ':' :: X := by
  simp [skipWs, List.dropWhile_cons, jsonWs]

/-- Whitespace skipping stops at a quote. -/
theorem skipWs_quote (X : List Char) : skipWs ('"' :: X) = '"' :: X := by
  simp [skipWs, List.dropWhile_cons, jsonWs]

/-- Whitespace skipping stops at a closing brace. -/
theorem skipWs_rbrace (X : List Char) : skipWs ('}' :: X) = '}' :: X := by
  simp [skipWs, List.dropWhile_cons, jsonWs]

/-- Whitespace skipping stops at a comma. -/
theorem skipWs_comma (X : List Char) : skipWs (',' :: X) = ',' :: X := by
  simp [skipWs, List.dropWhile_cons, jsonWs]

/-- Whitespace skipping passes one space. -/
theorem skipWs_space (X : List Char) : skipWs (' ' :: X) = skipWs X := by
  simp [skipWs, List.dropWhile_cons, jsonWs]

/-- A serialised member list starts with a quote, so whitespace skipping
leaves it alone. -/
theorem skipWs_dumpsObj (k v : List Char) (ms : List (List Char × Json)) (X : List Char) :
    skipWs (dumpsObj ((k, Json.str v) :: ms) ++ X) = dumpsObj ((k, Json.str v) :: ms) ++ X := by
  cases ms <;>
    simp [dumpsObj, dumpsStr, dumps, skipWs, List.dropWhile_cons, jsonWs, List.cons_append]

/-- Scanning the serialised members of string key/value pairs recovers the
pairs: the members round trip. -/
theorem rt_members (ps : List (List Char × List Char)) :
    ∀ (f : Nat) (rest : List Char), ps ≠ [] → 2 * ps.length + 1 ≤ f →
      parseMembers f (dumpsObj (strMembers ps) ++ '}' :: rest) = some (strMembers ps, rest) := by
  induction ps with
  | nil =>
    intro f rest hne _
    exact absurd rfl hne
  | cons hd tl ih =>
    rcases hd with ⟨k, v⟩
    intro f rest _ hf
    rcases f with _ | f1
    · exfalso
      simp only [List.length_cons] at hf
      omega
    rcases f1 with _ | f2
    · exfalso
      simp only [List.length_cons] at hf
      omega
    cases tl with
    | nil =>
      have hS : dumpsObj (strMembers [(k, v)]) ++ '}' :: rest =
          '"' :: (escBody k ++ '"' ::
            (':' :: (' ' :: ('"' :: (escBody v ++ '"' :: ('}' :: rest)))))) := by
        simp [strMembers, dumpsObj, dumps, dumpsStr, List.append_assoc]
      rw [hS]
      simp only [parseMembers_cons_eq, rt_stringBody, skipWs_colon, skipWs_space, skipWs_quote,
        skipWs_rbrace, parseValue_quote, Option.map_some']
      simp [strMembers]
    | cons hd2 tl2 =>
      rcases hd2 with ⟨k2, v2⟩
      have hS : dumpsObj (strMembers ((k, v) :: (k2, v2) :: tl2)) ++ '}' :: rest =
          '"' :: (escBody k ++ '"' ::
            (':' :: (' ' :: ('"' :: (escBody v ++ '"' ::
              (',' :: (' ' ::
                (dumpsObj (strMembers ((k2, v2) :: tl2)) ++ '}' :: rest)))))))) := by
        simp [strMembers, dumpsObj, dumps, dumpsStr, List.append_assoc]
      rw [hS]
      simp only [parseMembers_cons_eq, rt_stringBody, skipWs_colon, skipWs_space, skipWs_quote,
        skipWs_comma, parseValue_quote, Option.map_some']
      rw [show strMembers ((k2, v2) :: tl2) = (k2, Json.str v2) :: strMembers tl2 from rfl,
        skipWs_dumpsObj]
      have ih' := ih (f2 + 1) rest (List.cons_ne_nil _ _) (by
        simp only [List.length_cons] at hf ⊢
        omega)
      rw [show strMembers ((k2, v2) :: tl2) = (k2, Json.str v2) :: strMembers tl2 from rfl] at ih'
      rw [ih']
      simp [strMembers]

/-- Whitespace skipping stops at an opening brace. -/
theorem skipWs_lbrace (X : List Char) : skipWs ('{' :: X) = '{' :: X := by
  simp [skipWs, List.dropWhile_cons, jsonWs]

/-- One-step unfolding of the value scanner at an object whose body starts
with a key. -/
theorem parseValue_lbrace_quote (f : Nat) (Y : List Char) :
    parseValue (f + 1) ('{' :: ('"' :: Y)) =
      (parseMembers f ('"' :: Y)).map (fun p => (Json.obj p.1, p.2)) := rfl

/-- A serialised object whose first member has a string value starts with a
quote, whatever follows. -/
theorem dumpsObj_strPair_shape (k v : List Char) (ms : List (List Char × Json)) (X : List Char) :
    ∃ Q, dumpsObj ((k, Json.str v) :: ms) ++ X = '"' :: Q := by
  cases ms with
  | nil =>
    exact ⟨escBody k ++ '"' :: ':' :: ' ' :: (dumps (Json.str v) ++ X),
      by simp [dumpsObj, dumpsStr, List.cons_append, List.append_assoc]⟩
  | cons m2 tl =>
    exact ⟨escBody k ++ '"' :: ':' :: ' ' ::
        (dumps (Json.str v) ++ ',' :: ' ' :: (dumpsObj (m2 :: tl) ++ X)),
      by simp [dumpsObj, dumpsStr, List.cons_append, List.append_assoc]⟩

/-- `json.loads` inverts `json.dumps` on every EventRecord with string
values. -/
theorem rt_loads_event (t d sd ed du lo : List Char) :
    loads (dumps (eventObj t d sd ed du lo)) = some (eventObj t d sd ed du lo) := by
  have hshape : dumps (eventObj t d sd ed du lo) =
      '{' :: (dumpsObj (strMembers (eventPairs t d sd ed du lo)) ++ '}' :: []) := by
    simp [eventObj, dumps]
  have hcons : strMembers (eventPairs t d sd ed du lo) =
      ("title".data, Json.str t) :: strMembers [("description".data, d),
        ("start_datetime".data, sd), ("end_datetime".data, ed), ("duration".data, du),
        ("location".data, lo)] := rfl
  obtain ⟨Q, hQ⟩ := dumpsObj_strPair_shape "title".data t
    (strMembers [("description".data, d), ("start_datetime".data, sd),
      ("end_datetime".data, ed), ("duration".data, du), ("location".data, lo)]) ('}' :: [])
  have hQ2 : dumpsObj (strMembers (eventPairs t d sd ed du lo)) ++ '}' :: [] = '"' :: Q := by
    rw [hcons]; exact hQ
  have h1 : 11 ≤ (dumpsObj (strMembers (eventPairs t d sd ed du lo))).length := by
    rw [hcons]
    simp only [strMembers, List.map_cons, List.map_nil, dumpsObj, dumpsStr, dumps,
      List.length_append, List.length_cons, List.cons_append, List.append_assoc]
    omega
  have hlen : 13 ≤ (dumps (eventObj t d sd ed du lo)).length := by
    rw [hshape]
    simp only [List.length_cons, List.length_append]
    omega
  rw [loads]
  rcases hfuel : (dumps (eventObj t d sd ed du lo)).length with _ | flen
  · omega
  · rw [hshape, skipWs_lbrace, hQ2, parseValue_lbrace_quote, ← hQ2]
    rw [rt_members (eventPairs t d sd ed du lo) (flen + 1) [] (List.cons_ne_nil _ _) (by
      simp only [eventPairs, List.length_cons, List.length_nil]
      omega)]
    rfl

/-- Stripping a newline-wrapped brace-delimited body recovers the body. -/
theorem pyStrip_fence_body (mid : List Char) :
    pyStrip ('\n' :: (('{' :: (mid ++ ['}'])) ++ ['\n'])) = '{' :: (mid ++ ['}']) := by
  have e1 : pyIsSpace '\n' = true := by decide
  have e2 : pyIsSpace '{' = false := by decide
  have e3 : pyIsSpace '}' = false := by decide
  simp [pyStrip, List.dropWhile_cons, e1, e2, e3, List.cons_append, List.append_assoc,
    List.reverse_append, List.reverse_cons]

/-- When the serialised payload is fence-free, the labeled opener does not
occur in the tail of the wrapped text. -/
theorem no_fenceJson_in_tail {D : List Char} (hfree : ¬ fenceM <:+: D) :
    ¬ fenceJson <:+: ('\n' :: (D ++ '\n' :: fenceM)) := by
  intro h
  have hnl : ('\n' : Char) ∉ fenceJson := by decide
  have h' : fenceJson <:+: ([] ++ '\n' :: (D ++ '\n' :: fenceM)) := h
  rcases (infix_split_char hnl [] (D ++ '\n' :: fenceM)).mp h' with h1 | h1
  · exact absurd h1 (by decide)
  · rcases (infix_split_char hnl D fenceM).mp h1 with h2 | h2
    · exact hfree ((by decide : fenceM <+: fenceJson).isInfix.trans h2)
    · exact absurd h2 (by decide)

/-- When the serialised payload is fence-free, the text before the closing
fence is clean for the plain-fence scan. -/
theorem fence_clean_left {D : List Char} (hfree : ¬ fenceM <:+: D) :
    ¬ fenceM <:+: (('\n' :: (D ++ ['\n'])) ++ fenceM.take (fenceM.length - 1)) := by
  intro h
  have hnl : ('\n' : Char) ∉ fenceM := by decide
  have heq : ('\n' :: (D ++ ['\n'])) ++ fenceM.take (fenceM.length - 1) =
      [] ++ '\n' :: (D ++ '\n' :: fenceM.take (fenceM.length - 1)) := by
    simp
  rw [heq] at h
  rcases (infix_split_char hnl [] (D ++ '\n' :: fenceM.take (fenceM.length - 1))).mp h
    with h1 | h1
  · exact absurd h1 (by decide)
  · rcases (infix_split_char hnl D (fenceM.take (fenceM.length - 1))).mp h1 with h2 | h2
    · exact hfree h2
    · exact absurd h2 (by decide)

set_option maxRecDepth 16384 in
/-- C3: the round trip as literally stated fails on an EventRecord whose
serialization itself contains a fence marker: the extractor cuts the payload
at the marker inside the title, and parsing the cut fragment is the
"malformed JSON" failure, not the original record. -/
theorem C3_stated_counterexample :
    extractAndParse (fenceWrap (dumps
        (eventObj "x\u0060\u0060\u0060y".data [] [] [] [] []))) =
      .error .malformed ∧
    extractAndParse (fenceWrap (dumps
        (eventObj "x\u0060\u0060\u0060y".data [] [] [] [] []))) ≠
      .ok (eventObj "x\u0060\u0060\u0060y".data [] [] [] [] []) := by
  have h : extractAndParse (fenceWrap (dumps
      (eventObj "x\u0060\u0060\u0060y".data [] [] [] [] []))) = .error .malformed := by rfl
  exact ⟨h, fun hc => Except.noConfusion (h.symm.trans hc)⟩

/-- C3 (amended): for every EventRecord with string values whose
`json.dumps` serialization contains no fence marker, wrapping the
serialization in a json-labeled fenced block and running it through the
extractor and parser yields the original record. -/
theorem C3_roundtrip_fenced (t d sd ed du lo : List Char)
    (hfree : ¬ fenceM <:+: dumps (eventObj t d sd ed du lo)) :
    extractAndParse (fenceWrap (dumps (eventObj t d sd ed du lo))) =
      .ok (eventObj t d sd ed du lo) := by
  have hshape : dumps (eventObj t d sd ed du lo) =
      '{' :: (dumpsObj (strMembers (eventPairs t d sd ed du lo)) ++ '}' :: []) := by
    simp [eventObj, dumps]
  have hin : fenceJson <:+: fenceWrap (dumps (eventObj t d sd ed du lo)) :=
    List.IsPrefix.isInfix
      ⟨'\n' :: (dumps (eventObj t d sd ed du lo) ++ '\n' :: fenceM), rfl⟩
  have hA : afterFirst fenceJson (fenceWrap (dumps (eventObj t d sd ed du lo))) =
      '\n' :: (dumps (eventObj t d sd ed du lo) ++ '\n' :: fenceM) := by
    have heq : fenceWrap (dumps (eventObj t d sd ed du lo)) =
        [] ++ (fenceJson ++
          ('\n' :: (dumps (eventObj t d sd ed du lo) ++ '\n' :: fenceM))) := rfl
    rw [heq]
    exact afterFirst_append (by decide) _ (by decide)
  have hU1 : upToFirst fenceJson
        ('\n' :: (dumps (eventObj t d sd ed du lo) ++ '\n' :: fenceM)) =
      '\n' :: (dumps (eventObj t d sd ed du lo) ++ '\n' :: fenceM) :=
    upToFirst_of_not_infix (no_fenceJson_in_tail hfree)
  have hU2 : upToFirst fenceM
        ('\n' :: (dumps (eventObj t d sd ed du lo) ++ '\n' :: fenceM)) =
      '\n' :: (dumps (eventObj t d sd ed du lo) ++ ['\n']) := by
    have heq : '\n' :: (dumps (eventObj t d sd ed du lo) ++ '\n' :: fenceM) =
        ('\n' :: (dumps (eventObj t d sd ed du lo) ++ ['\n'])) ++ (fenceM ++ []) := by
      simp
    rw [heq]
    exact upToFirst_append (by decide) [] (fence_clean_left hfree)
  have hcand : amendedFenceContent fenceJson (fenceWrap (dumps (eventObj t d sd ed du lo))) =
      '\n' :: (dumps (eventObj t d sd ed du lo) ++ ['\n']) := by
    rw [amendedFenceContent, hA, hU1, hU2]
  have hstrip : pyStrip ('\n' :: (dumps (eventObj t d sd ed du lo) ++ ['\n'])) =
      dumps (eventObj t d sd ed du lo) := by
    rw [hshape]
    exact pyStrip_fence_body _
  have hex : amendedExtract (fenceWrap (dumps (eventObj t d sd ed du lo))) =
      .ok (dumps (eventObj t d sd ed du lo)) := by
    rw [amendedExtract, if_pos hin, hcand, hstrip, hshape]
    rfl
  rw [extractAndParse_eq_amended, amendedPipeline, hex]
  simp only [rt_loads_event]

set_option maxRecDepth 16384 in
/-- Witness for `C3_roundtrip_fenced`: a concrete fence-free EventRecord
round-trips through the wrapped extraction pipeline. -/
theorem C3_witness :
    extractAndParse (fenceWrap (dumps (eventObj "Team sync".data "weekly".data
        "2026-10-13T15:00:00".data "2026-10-13T16:00:00".data "1h".data "HQ".data))) =
      .ok (eventObj "Team sync".data "weekly".data
        "2026-10-13T15:00:00".data "2026-10-13T16:00:00".data "1h".data "HQ".data) :=
  C3_roundtrip_fenced _ _ _ _ _ _ (by decide)

end DCS
